import Mathlib

/-!
Verification of the `parsegp` Guitar Pro (.gp5) binary decoder.

The Go source is shallowly embedded: the parser's byte buffer is a
`List Nat` of byte values with a mutable cursor position, Go structs become
Lean structures whose field defaults are the Go zero values, Go `float64`
duration arithmetic is modelled over `ℚ` (on every value exercised here the
Go double-precision computations are exact, since all intermediate values
are small dyadic rationals or exact small-integer quotients), and Go strings
are Lean `String`s built from the byte values (Go's `string(bytes)` keeps
raw bytes; byte values are mapped to the code points below 256).
Fallible reads return their value together with the advanced state and a
success flag, mirroring Go's `(value, err)` convention where a failed read
yields the zero value; reads that can panic in Go (negative-length slices)
return a dedicated `panicked` result.
-/

set_option maxHeartbeats 1000000

namespace Parsegp

/-- RGB colour; Go zero value is all fields 0 (`struct.go` / model part `Color`). -/
structure Color where
  R : Nat := 0
  G : Nat := 0
  B : Nat := 0
  deriving Repr, DecidableEq

/-- Key/value channel parameter (`ChannelParam` in the source). -/
structure ChannelParam where
  Key : String := ""
  Value : String := ""
  deriving Repr, DecidableEq

/-- Mixer channel (`Channel` in the source); defaults are Go zero values. -/
structure Channel where
  Program : Int := 0
  Volume : Nat := 0
  Pan : Nat := 0
  Chorus : Nat := 0
  Reverb : Nat := 0
  Phaser : Nat := 0
  Tremolo : Nat := 0
  Balance : Nat := 0
  Color : Color := {}
  Bank : String := ""
  IsPercussionChannel : Bool := false
  ID : Int := 0
  Name : String := ""
  Parameters : List ChannelParam := []
  deriving Repr, DecidableEq

/-- One physical guitar string: ordinal number and open-string pitch value. -/
structure GuitarString where
  Number : Int := 0
  Value : Int := 0
  deriving Repr, DecidableEq

/-- Tuplet division (`Division` in the source). -/
structure Division where
  Times : Int := 0
  Enters : Int := 0
  deriving Repr, DecidableEq

/-- Note duration; `Value` is the Go `float64` field modelled over `ℚ`. -/
structure Duration where
  Value : ℚ := 0
  Dotted : Bool := false
  DoubleDotted : Bool := false
  Division : Division := {}
  deriving Repr, DecidableEq

/-- Bend curve point. -/
structure BendPoint where
  Position : Int := 0
  Value : Int := 0
  deriving Repr, DecidableEq

/-- Bend effect: list of points. -/
structure Bend where
  Points : List BendPoint := []
  deriving Repr, DecidableEq

/-- Tremolo-bar curve point. -/
structure TremoloPoint where
  Position : Int := 0
  Value : Int := 0
  deriving Repr, DecidableEq

/-- Tremolo-bar effect: list of points. -/
structure TremoloBar where
  Points : List TremoloPoint := []
  deriving Repr, DecidableEq

/-- Grace-note effect (`Grace` in the source). -/
structure Grace where
  Fret : Nat := 0
  Dynamic : Int := 0
  Duration : Nat := 0
  Dead : Bool := false
  OnBeat : Bool := false
  Transition : String := ""
  deriving Repr, DecidableEq

/-- Tremolo picking; the source nests an anonymous `struct { Value string }`
named `Duration`, flattened here to `DurationValue`. -/
structure TremoloPicking where
  DurationValue : String := ""
  deriving Repr, DecidableEq

/-- Artificial/natural harmonic, identified by a type string. -/
structure Harmonic where
  Type' : String := ""
  deriving Repr, DecidableEq

/-- Trill effect; the nested anonymous duration struct is flattened as in
`TremoloPicking`. -/
structure Trill where
  Fret : Nat := 0
  DurationValue : String := ""
  deriving Repr, DecidableEq

/-- The flat bag of note-articulation data (`NoteEffect` in the source). -/
structure NoteEffect where
  TremoloBar : TremoloBar := {}
  FadeIn : Bool := false
  Vibrato : Bool := false
  Tapping : Bool := false
  Slapping : Bool := false
  Pop : Bool := false
  AccentuatedNote : Bool := false
  HeavyAccentuatedNote : Bool := false
  GhostNote : Bool := false
  DeadNote : Bool := false
  Slide : Bool := false
  Hammer : Bool := false
  LetRing : Bool := false
  PalmMute : Bool := false
  Staccato : Bool := false
  Bend : Bend := {}
  Grace : Grace := {}
  TremoloPicking : TremoloPicking := {}
  Harmonic : Harmonic := {}
  Trill : Trill := {}
  deriving Repr, DecidableEq

/-- A decoded note (`Note` in the source); `Value` is the Go `uint8` fret. -/
structure Note where
  String : Int := 0
  Effect : NoteEffect := {}
  TiedNote : Bool := false
  Velocity : Int := 0
  Value : Nat := 0
  deriving Repr, DecidableEq

/-- One of a beat's two voices. -/
structure Voice where
  Start : Int := 0
  Notes : List Note := []
  Empty : Bool := false
  Duration : Duration := {}
  deriving Repr, DecidableEq

/-- Stroke direction data set by the beat-effects decoder. -/
structure Stroke where
  Direction : String := ""
  Value : String := ""
  deriving Repr, DecidableEq

/-- Pitch key/value pair. -/
structure Pitch where
  Key : String := ""
  Value : String := ""
  deriving Repr, DecidableEq

/-- Generic typed effect parameter bag (`Effect` in the source). -/
structure Effect where
  Type' : String := ""
  Params : List ChannelParam := []
  deriving Repr, DecidableEq

/-- Text-effect record nested inside beat text. -/
structure TextEffect where
  Type' : String := ""
  Params : List ChannelParam := []
  Pitch : Pitch := {}
  deriving Repr, DecidableEq

/-- Free text attached to a beat (`Text` in the source). -/
structure TextT where
  Start : Int := 0
  Text : String := ""
  Effect : TextEffect := {}
  Pitch : Pitch := {}
  Value : String := ""
  deriving Repr, DecidableEq

/-- Chord diagram; `Strings` is the Go `*[]GuitarString` pointer, modelled
as an `Option`. -/
structure Chord where
  Name : String := ""
  Strings : Option (List GuitarString) := none
  Frets : List Int := []
  deriving Repr, DecidableEq

/-- A rhythmic slot holding two voices (`Beat` in the source). -/
structure Beat where
  Start : Int := 0
  Voices : List Voice := []
  Stroke : Stroke := {}
  Pitch : Pitch := {}
  Effect : Effect := {}
  Text : TextT := {}
  Chord : Chord := {}
  deriving Repr, DecidableEq

/-- Clef display data. -/
structure Clef where
  Type' : String := ""
  Line : Int := 0
  Octave : Int := 0
  Name : String := ""
  deriving Repr, DecidableEq

/-- Time-signature denominator: a duration value plus tuplet division. -/
structure Denominator where
  Value : ℚ := 0
  Division : Division := {}
  deriving Repr, DecidableEq

/-- Time signature. -/
structure TimeSignature where
  Numerator : Int := 0
  Denominator : Denominator := {}
  Division : Division := {}
  deriving Repr, DecidableEq

/-- Per-measure header record. -/
structure MeasureHeader where
  Number : Int := 0
  Start : Int := 0
  Tempo : Int := 0
  RepeatOpen : Bool := false
  TimeSignature : TimeSignature := {}
  deriving Repr, DecidableEq

/-- A track's measure (`Measure` in the source). -/
structure Measure where
  Header : MeasureHeader := {}
  Start : Int := 0
  Beats : List Beat := []
  TempoValue : Int := 0
  KeySignature : Int := 0
  Clef : Clef := {}
  TrackID : Int := 0
  ID : Int := 0
  Voices : List Voice := []
  deriving Repr, DecidableEq

/-- A track (`Track` in the source). -/
structure Track where
  ChannelID : Int := 0
  Number : Int := 0
  Name : String := ""
  GuitarStrings : List GuitarString := []
  Measures : List Measure := []
  Channel : Channel := {}
  deriving Repr, DecidableEq

/-- Tempo record; `Value` is the int32 mutated by the mix-change decoder. -/
structure Tempo where
  BPM : Int := 0
  TimeSig : TimeSignature := {}
  TimeSigBeats : List Int := []
  TempoValue : Int := 0
  TempoValueStr : String := ""
  TimeSigBeatsStr : List String := []
  TempoStr : String := ""
  Value : Int := 0
  deriving Repr, DecidableEq

/-! ## Cursor state and primitive reads (gp5parser.go lines 174-395) -/

/-- The mutable part of the Go `Parser` that the decoders in this
development touch: the byte buffer, cursor position, the channel list and
the version index. -/
structure PSt where
  buf : List Nat := []
  pos : Nat := 0
  channels : List Channel := []
  versionIndex : Int := 0
  deriving Repr, DecidableEq

/-- Go byte values are below 256; buffers fed to the parser satisfy this. -/
def bufWF (l : List Nat) : Prop := ∀ b ∈ l, b < 256

/-- `readInt` (lines 177-194): 4-byte little-endian int32, OR-combined from
four masked bytes, cast from uint32 to int32. Returns `(value, state, ok)`;
on a bounds failure Go returns `(0, err)` with the position unchanged. -/
def readInt (s : PSt) : Int × PSt × Bool :=
  if s.pos + 4 > s.buf.length then (0, s, false)
  else
    let u : Nat :=
      (((s.buf.getD (s.pos + 3) 0) % 256) <<< 24) |||
      (((s.buf.getD (s.pos + 2) 0) % 256) <<< 16) |||
      (((s.buf.getD (s.pos + 1) 0) % 256) <<< 8) |||
      ((s.buf.getD s.pos 0) % 256)
    let v : Int := if u < 2 ^ 31 then (u : Int) else (u : Int) - 2 ^ 32
    (v, { s with pos := s.pos + 4 }, true)

/-- `readByte` (lines 201-212): one byte, advancing by 1. -/
def readByte (s : PSt) : Nat × PSt × Bool :=
  if s.pos ≥ s.buf.length then (0, s, false)
  else (s.buf.getD s.pos 0, { s with pos := s.pos + 1 }, true)

/-- `readUnsignedByte` (lines 228-239): identical body to `readByte`. -/
def readUnsignedByte (s : PSt) : Nat × PSt × Bool :=
  if s.pos ≥ s.buf.length then (0, s, false)
  else (s.buf.getD s.pos 0, { s with pos := s.pos + 1 }, true)

/-- Go's `string(bytes)` conversion: each byte becomes the code point of
the same value (bytes are < 256, all of which are valid code points). -/
def goStr (l : List Nat) : String :=
  ⟨l.map Char.ofNat⟩

/-- Result of `readString`-style reads.  Go's slice expression
`FileBuffer[pos : pos+size]` panics when the bounds are inverted, which the
pre-check does not rule out for negative `size`; `panicked` records that
outcome. -/
inductive StrRes where
  | ok (val : String) (s : PSt) : StrRes
  | err (s : PSt) : StrRes
  | panicked : StrRes
  deriving Repr, DecidableEq

/-- `readString` (lines 254-266): bounds check, then slice `size` bytes.
A negative `size` passes the `pos+size > len` check (the sum is smaller
than `pos`) and the slice `FileBuffer[pos : pos+size]` then panics. -/
def readString (size : Int) (s : PSt) : StrRes :=
  if (s.pos : Int) + size > (s.buf.length : Int) then .err s
  else if size < 0 then .panicked
  else .ok (goStr ((s.buf.drop s.pos).take size.toNat))
    { s with pos := s.pos + size.toNat }

/-- `readByteString` (lines 283-307): reads `max(size,len)`-style slot of
`bytesToRead` bytes (`size` if positive else `len`), returns the first
`len` of them when `0 ≤ len ≤ bytesToRead`.  `len` comes from a byte at
every call site, so `bytesToRead` is never negative and no panic arises. -/
def readByteString (size len : Int) (s : PSt) : String × PSt × Bool :=
  let bytesToRead : Int := if size ≤ 0 then len else size
  if (s.pos : Int) + bytesToRead > (s.buf.length : Int) then ("", s, false)
  else
    let bytes := (s.buf.drop s.pos).take bytesToRead.toNat
    let actualLength : Int :=
      if 0 ≤ len ∧ len ≤ bytesToRead then len else bytesToRead
    (goStr (bytes.take actualLength.toNat),
      { s with pos := s.pos + bytesToRead.toNat }, true)

/-- `readStringByte` (lines 321-327): length byte, then `readByteString`. -/
def readStringByte (size : Int) (s : PSt) : String × PSt × Bool :=
  let (num, s1, ok) := readUnsignedByte s
  if !ok then ("", s1, false)
  else readByteString size (num : Int) s1

/-- `readStringByteSizeOfInteger` (lines 340-346): size byte, then
`readStringByte (size - 1)`. -/
def readStringByteSizeOfInteger (s : PSt) : String × PSt × Bool :=
  let (num, s1, ok) := readUnsignedByte s
  if !ok then ("", s1, false)
  else readStringByte ((num : Int) - 1) s1

/-- `readStringInteger` (lines 359-365): 4-byte length, then `readString`. -/
def readStringInteger (s : PSt) : StrRes :=
  let (num, s1, ok) := readInt s
  if !ok then .err s1
  else readString num s1

/-- `skip` (lines 378-380): unchecked cursor advance. -/
def skip (n : Nat) (s : PSt) : PSt :=
  { s with pos := s.pos + n }

/-- `ReadVersion` (lines 393-395). -/
def readVersion (s : PSt) : String × PSt × Bool :=
  readStringByte 30 s

/-- The recognized version strings (`VERSIONS`, lines 33-36). -/
def VERSIONS : List String :=
  ["FICHIER GUITAR PRO v5.00", "FICHIER GUITAR PRO v5.10"]

/-- `IsSupportedVersion` (lines 1611-1619): linear scan returning the
version index when matched. -/
def isSupportedVersion (version : String) : Option Nat :=
  (VERSIONS.indexOf? version)

/-! ## Numeric helpers for Go float64 conversions -/

/-- Go's `int32(f)` float-to-int conversion truncates toward zero. -/
def ratTrunc (q : ℚ) : Int :=
  if q < 0 then ⌈q⌉ else ⌊q⌋

/-- Go's `math.Round`: round half away from zero. -/
def roundHalfAway (q : ℚ) : Int :=
  if q < 0 then -⌊-q + 1/2⌋ else ⌊q + 1/2⌋

/-- Constants from gp5parser.go lines 22-31. -/
def QUARTER_TIME : ℚ := 960

def TGVELOCITIES_MIN_VELOCITY : Int := 15

def TGVELOCITIES_VELOCITY_INCREMENT : Int := 16

def TGEFFECTBEND_MAX_POSITION_LENGTH : ℚ := 12

def TGEFFECTBEND_SEMITONE_LENGTH : ℚ := 1

def GP_BEND_SEMITONE : ℚ := 25

def GP_BEND_POSITION : ℚ := 60

/-! ## Key signature, channel table, channel binding -/

/-- `readKeySignature` (lines 458-469): one byte plus 7, in wrapping byte
arithmetic.  On a failed read Go computes `keySignature - 1` on the zero
value returned by `readByte`, i.e. byte `255`. -/
def readKeySignature (s : PSt) : Nat × PSt :=
  let (keySignature, s1, ok) := readByte s
  if !ok then ((keySignature + 255) % 256, s1)
  else ((7 + keySignature) % 256, s1)

/-- One iteration of the `readChannels` loop (lines 486-534): a 4-byte
program, seven mix bytes, the percussion special case for index 9, the
negative-program clamp, and the trailing 2-byte skip. -/
def readChannelRecord (i : Nat) (s : PSt) : Channel × PSt :=
  let (program, s, _) := readInt s
  let (volume, s, _) := readByte s
  let (balance, s, _) := readByte s
  let (chorus, s, _) := readByte s
  let (reverb, s, _) := readByte s
  let (pan, s, _) := readByte s
  let (phaser, s, _) := readByte s
  let (tremolo, s, _) := readByte s
  let channel : Channel :=
    { Program := program, Volume := volume, Balance := balance,
      Chorus := chorus, Reverb := reverb, Pan := pan, Phaser := phaser,
      Tremolo := tremolo }
  let channel :=
    if i = 9 then
      { channel with
        Bank := "default percussion bank"
        IsPercussionChannel := true }
    else { channel with Bank := "default bank" }
  let channel :=
    if channel.Program < 0 then { channel with Program := 0 } else channel
  (channel, skip 2 s)

/-- The `readChannels` loop over the index list. -/
def readChannelsAux : List Nat → PSt → List Channel × PSt
  | [], s => ([], s)
  | i :: rest, s =>
    let (c, s1) := readChannelRecord i s
    let (cs, s2) := readChannelsAux rest s1
    (c :: cs, s2)

/-- `readChannels` (lines 484-537): 64 fixed-size records. -/
def readChannels (s : PSt) : List Channel × PSt :=
  readChannelsAux (List.range 64) s

/-- `readChannel` (lines 583-634): per-track channel binding.  Note that
the Go code copies `p.Channels[gmChannel1]` into a local struct by value;
the `ID` written into that copy is appended as a new list entry but never
stored back into the table slot it was copied from. -/
def readChannel (track : Track) (s : PSt) : Track × PSt :=
  let (gmChannel1, s, ok) := readInt s
  if !ok then (track, s)
  else
    let gmChannel1 := gmChannel1 - 1
    let (gmChannel2, s, ok) := readInt s
    if !ok then (track, s)
    else
      let gmChannel2 := gmChannel2 - 1
      if 0 ≤ gmChannel1 ∧ gmChannel1 < (s.channels.length : Int) then
        let gmChannel1Param : ChannelParam :=
          { Key := "gm channel 1", Value := toString gmChannel1 }
        let gmChannel2Value := if gmChannel1 = 9 then gmChannel1 else gmChannel2
        let gmChannel2Param : ChannelParam :=
          { Key := "gm channel 2", Value := toString gmChannel2Value }
        let channel := s.channels.getD gmChannel1.toNat {}
        if channel.ID = 0 then
          let channel :=
            { channel with
              ID := (s.channels.length : Int) + 1,
              Name := "TODO",
              Parameters := channel.Parameters ++ [gmChannel1Param, gmChannel2Param] }
          ({ track with ChannelID := channel.ID },
            { s with channels := s.channels ++ [channel] })
        else ({ track with ChannelID := channel.ID }, s)
      else (track, s)

/-! ## Duration arithmetic (lines 985-1058) -/

/-- `getTime` (lines 985-994): absolute time of a duration. -/
def getTime (duration : Duration) : ℚ :=
  let time := QUARTER_TIME * 4 / duration.Value
  let time :=
    if duration.Dotted then time + time / 2
    else if duration.DoubleDotted then time + (time / 4) * 3
    else time
  time * (duration.Division.Times : ℚ) / (duration.Division.Enters : ℚ)

/-- The duration value computed from the duration byte at line 1013:
`math.Pow(2, float64(b+4)) / 4` where `b+4` is Go byte arithmetic. -/
def durationValue (b : Nat) : ℚ :=
  2 ^ ((b + 4) % 256) / 4

/-- The tuplet lookup switch of `readDuration` (lines 1022-1050). -/
def divisionOfType (divisionType : Int) : Division :=
  if divisionType = 3 then { Enters := 3, Times := 2 }
  else if divisionType = 5 then { Enters := 5, Times := 5 }
  else if divisionType = 6 then { Enters := 6, Times := 4 }
  else if divisionType = 7 then { Enters := 7, Times := 4 }
  else if divisionType = 9 then { Enters := 9, Times := 8 }
  else if divisionType = 10 then { Enters := 10, Times := 8 }
  else if divisionType = 11 then { Enters := 11, Times := 8 }
  else if divisionType = 12 then { Enters := 12, Times := 8 }
  else if divisionType = 13 then { Enters := 13, Times := 8 }
  else { Enters := 0, Times := 0 }

/-- `readDuration` (lines 1006-1058). -/
def readDuration (flags : Nat) (s : PSt) : ℚ × PSt :=
  let (b, s, ok) := readByte s
  if !ok then (0, s)
  else
    let duration : Duration :=
      { Value := durationValue b, Dotted := flags &&& 0x01 ≠ 0 }
    if flags &&& 0x20 ≠ 0 then
      let (divisionType, s, ok) := readInt s
      if !ok then (0, s)
      else
        let duration := { duration with Division := divisionOfType divisionType }
        let duration :=
          if duration.Division.Enters = 0 then
            { duration with Division := { Enters := 1, Times := 1 } }
          else duration
        (getTime duration, s)
    else
      let duration :=
        if duration.Division.Enters = 0 then
          { duration with Division := { Enters := 1, Times := 1 } }
        else duration
      (getTime duration, s)

/-! ## Note-effect sub-decoders (lines 1252-1501) -/

/-- The point-reading loop of `readBend` (lines 1306-1329); returns the
collected points, the state, and whether the loop finished (a failed read
makes `readBend` return without assigning the bend). -/
def readBendPoints : Nat → List BendPoint → PSt → List BendPoint × PSt × Bool
  | 0, points, s => (points, s, true)
  | n + 1, points, s =>
    let (bendPosition, s, ok) := readInt s
    if !ok then (points, s, false)
    else
      let (bendValue, s, ok2) := readInt s
      if !ok2 then (points, s, false)
      else
        let (_, s, _) := readByte s
        let point : BendPoint :=
          { Position := roundHalfAway ((bendPosition : ℚ) *
              TGEFFECTBEND_MAX_POSITION_LENGTH / GP_BEND_POSITION),
            Value := roundHalfAway ((bendValue : ℚ) *
              TGEFFECTBEND_SEMITONE_LENGTH / GP_BEND_SEMITONE) }
        readBendPoints n (points ++ [point]) s

/-- `readBend` (lines 1295-1334). -/
def readBend (effect : NoteEffect) (s : PSt) : NoteEffect × PSt :=
  let s := skip 5 s
  let (numPoints, s, ok) := readInt s
  if !ok then (effect, s)
  else
    let (points, s, done) := readBendPoints numPoints.toNat [] s
    if !done then (effect, s)
    else if points.length > 0 then ({ effect with Bend := ⟨points⟩ }, s)
    else (effect, s)

/-- `readGrace` (lines 1340-1393). -/
def readGrace (effect : NoteEffect) (s : PSt) : NoteEffect × PSt :=
  let (fret, s, ok) := readUnsignedByte s
  if !ok then (effect, s)
  else
    let (dynamic, s, ok) := readUnsignedByte s
    if !ok then (effect, s)
    else
      let (transition, s, ok) := readByte s
      if !ok then (effect, s)
      else
        let (duration, s, ok) := readUnsignedByte s
        if !ok then (effect, s)
        else
          let (flags, s, ok) := readUnsignedByte s
          if !ok then (effect, s)
          else
            let grace : Grace :=
              { Fret := fret,
                Dynamic := TGVELOCITIES_MIN_VELOCITY +
                  (TGVELOCITIES_VELOCITY_INCREMENT * (dynamic : Int)) -
                  TGVELOCITIES_VELOCITY_INCREMENT,
                Duration := duration,
                Dead := flags &&& 0x01 ≠ 0,
                OnBeat := flags &&& 0x02 ≠ 0 }
            let grace :=
              if transition = 0 then { grace with Transition := "none" }
              else if transition = 1 then { grace with Transition := "slide" }
              else if transition = 2 then { grace with Transition := "bend" }
              else if transition = 3 then { grace with Transition := "hammer" }
              else grace
            ({ effect with Grace := grace }, s)

/-- `readTremoloPicking` (lines 1403-1424). -/
def readTremoloPicking (effect : NoteEffect) (s : PSt) : NoteEffect × PSt :=
  let (value, s, ok) := readUnsignedByte s
  if !ok then (effect, s)
  else if value = 1 then
    ({ effect with TremoloPicking := ⟨"eighth"⟩ }, s)
  else if value = 2 then
    ({ effect with TremoloPicking := ⟨"sixteenth"⟩ }, s)
  else if value = 3 then
    ({ effect with TremoloPicking := ⟨"thirty_second"⟩ }, s)
  else (effect, s)

/-- `readArtificialHarmonic` (lines 1434-1461). -/
def readArtificialHarmonic (effect : NoteEffect) (s : PSt) : NoteEffect × PSt :=
  let (typeVal, s, ok) := readByte s
  if !ok then (effect, s)
  else if typeVal = 1 then ({ effect with Harmonic := ⟨"natural"⟩ }, s)
  else if typeVal = 2 then ({ effect with Harmonic := ⟨"artificial"⟩ }, skip 3 s)
  else if typeVal = 3 then ({ effect with Harmonic := ⟨"tapped"⟩ }, skip 1 s)
  else if typeVal = 4 then ({ effect with Harmonic := ⟨"pinch"⟩ }, s)
  else if typeVal = 5 then ({ effect with Harmonic := ⟨"semi"⟩ }, s)
  else (effect, s)

/-- `readTrill` (lines 1472-1501). -/
def readTrill (effect : NoteEffect) (s : PSt) : NoteEffect × PSt :=
  let (fret, s, ok) := readByte s
  if !ok then (effect, s)
  else
    let (period, s, ok) := readByte s
    if !ok then (effect, s)
    else
      let trill : Trill := { Fret := fret }
      if period = 1 then
        ({ effect with Trill := { trill with DurationValue := "sixteenth" } }, s)
      else if period = 2 then
        ({ effect with Trill := { trill with DurationValue := "thirty_second" } }, s)
      else if period = 3 then
        ({ effect with Trill := { trill with DurationValue := "sixty_fourth" } }, s)
      else (effect, s)

/-- `readNoteEffects` (lines 1252-1289). -/
def readNoteEffects (noteEffect : NoteEffect) (s : PSt) : NoteEffect × PSt :=
  let (flags1, s, ok) := readUnsignedByte s
  if !ok then (noteEffect, s)
  else
    let (flags2, s, ok) := readUnsignedByte s
    if !ok then (noteEffect, s)
    else
      let (noteEffect, s) :=
        if flags1 &&& 0x01 ≠ 0 then readBend noteEffect s else (noteEffect, s)
      let (noteEffect, s) :=
        if flags1 &&& 0x10 ≠ 0 then readGrace noteEffect s else (noteEffect, s)
      let (noteEffect, s) :=
        if flags2 &&& 0x04 ≠ 0 then readTremoloPicking noteEffect s
        else (noteEffect, s)
      let (noteEffect, s) :=
        if flags2 &&& 0x08 ≠ 0 then
          let noteEffect := { noteEffect with Slide := true }
          let (_, s, _) := readByte s
          (noteEffect, s)
        else (noteEffect, s)
      let (noteEffect, s) :=
        if flags2 &&& 0x10 ≠ 0 then readArtificialHarmonic noteEffect s
        else (noteEffect, s)
      let (noteEffect, s) :=
        if flags2 &&& 0x20 ≠ 0 then readTrill noteEffect s else (noteEffect, s)
      ({ noteEffect with
          Hammer := flags1 &&& 0x02 ≠ 0
          LetRing := flags1 &&& 0x08 ≠ 0
          Vibrato := flags2 &&& 0x40 ≠ 0
          PalmMute := flags2 &&& 0x02 ≠ 0
          Staccato := flags2 &&& 0x01 ≠ 0 }, s)

/-! ## Tied-note resolution and note decoding (lines 1148-1242) -/

/-- `getTiedNoteValue` (lines 1219-1242): walk this track's measures in
reverse, beats in reverse, voices forward (skipping voices marked empty),
notes in reverse; return the value of the first note found on the same
string that is itself marked tied, else 0. -/
def getTiedNoteValue (guitarString : Int) (track : Track) : Nat :=
  (track.Measures.reverse.findSome? fun measure =>
    measure.Beats.reverse.findSome? fun beat =>
      beat.Voices.findSome? fun voice =>
        if voice.Empty then none
        else voice.Notes.reverse.findSome? fun note =>
          if note.String = guitarString ∧ note.TiedNote then some note.Value
          else none).getD 0

/-- `readNote` (lines 1148-1214).  On any failed primitive read Go returns
the zero `Note{}` with the bytes consumed so far.  Note that when flag bit
0x20 is set the fret byte is read from the stream unconditionally; for a
tied note the byte's value is then discarded in favour of
`getTiedNoteValue`. -/
def readNote (guitarString : GuitarString) (track : Track)
    (effect : NoteEffect) (s : PSt) : Note × PSt :=
  let (flags, s, ok) := readUnsignedByte s
  if !ok then ({}, s)
  else
    let note : Note := { String := guitarString.Number, Effect := effect }
    let note :=
      { note with Effect :=
        { note.Effect with
          AccentuatedNote := flags &&& 0x40 ≠ 0
          HeavyAccentuatedNote := flags &&& 0x02 ≠ 0
          GhostNote := flags &&& 0x04 ≠ 0 } }
    let step1 : Option (Note × PSt) :=
      if flags &&& 0x20 ≠ 0 then
        let (noteType, s, ok) := readUnsignedByte s
        if !ok then none
        else some
          ({ note with
              TiedNote := noteType = 0x02
              Effect := { note.Effect with DeadNote := noteType = 0x03 } }, s)
      else some (note, s)
    match step1 with
    | none => ({}, s)
    | some (note, s) =>
      let step2 : Option (Note × PSt) :=
        if flags &&& 0x10 ≠ 0 then
          let (velocity, s, ok) := readByte s
          if !ok then none
          else some
            ({ note with
                Velocity := TGVELOCITIES_MIN_VELOCITY +
                  (TGVELOCITIES_VELOCITY_INCREMENT * (velocity : Int)) -
                  TGVELOCITIES_VELOCITY_INCREMENT }, s)
        else some (note, s)
      match step2 with
      | none => ({}, s)
      | some (note, s) =>
        let step3 : Option (Note × PSt) :=
          if flags &&& 0x20 ≠ 0 then
            let (fret, s, ok) := readByte s
            if !ok then none
            else
              let value := fret
              let value :=
                if note.TiedNote then getTiedNoteValue guitarString.Number track
                else value
              if 0 ≤ value ∧ value < 100 then some ({ note with Value := value }, s)
              else some ({ note with Value := 0 }, s)
          else some (note, s)
        match step3 with
        | none => ({}, s)
        | some (note, s) =>
          let s := if flags &&& 0x80 ≠ 0 then skip 2 s else s
          let s := if flags &&& 0x01 ≠ 0 then skip 8 s else s
          let s := skip 1 s
          if flags &&& 0x08 ≠ 0 then
            let (ne, s) := readNoteEffects note.Effect s
            ({ note with Effect := ne }, s)
          else (note, s)

/-! ## Beat-level decoders (lines 700-974 and 1073-1140) -/

/-- `getBeat` (lines 700-713): look up the beat at `start`, creating and
appending a fresh beat with two zero voices when absent.  Returns the
measure together with the index of the beat inside `Beats` (the Go code
returns a pointer into the slice). -/
def getBeat (measure : Measure) (start : Int) : Measure × Nat :=
  match measure.Beats.findIdx? (fun b => b.Start = start) with
  | some i => (measure, i)
  | none =>
    let beat : Beat := { Start := start, Voices := [{}, {}] }
    ({ measure with Beats := measure.Beats ++ [beat] }, measure.Beats.length)

/-- `readText` (lines 917-924). -/
def readText (beat : Beat) (s : PSt) : Beat × PSt :=
  let (text, s, ok) := readStringByteSizeOfInteger s
  if !ok then (beat, s)
  else ({ beat with Text := { beat.Text with Value := text } }, s)

/-- The fret-reading loop of `readChord` (lines 958-967). -/
def readChordFrets : List Nat → List Int → List GuitarString → PSt →
    List Int × PSt × Bool
  | [], frets, _, s => (frets, s, true)
  | i :: rest, frets, strings, s =>
    let (fret, s, ok) := readInt s
    if !ok then (frets, s, false)
    else
      let frets := if i < strings.length then frets.set i fret else frets
      readChordFrets rest frets strings s

/-- `readChord` (lines 933-974). -/
def readChord (strings : List GuitarString) (beat : Beat) (s : PSt) :
    Beat × PSt :=
  let chord : Chord := { Strings := some strings }
  let s := skip 17 s
  let (chordName, s, ok) := readStringByte 21 s
  if !ok then (beat, s)
  else
    let chord := { chord with Name := chordName }
    let s := skip 4 s
    let chord := { chord with Frets := List.replicate 6 0 }
    let (chordFrets, s, ok) := readInt s
    if !ok then (beat, s)
    else
      let chord := { chord with Frets := chord.Frets ++ [chordFrets] }
      let (frets, s, done) := readChordFrets (List.range 7) chord.Frets strings s
      if !done then (beat, s)
      else
        let chord := { chord with Frets := frets }
        let s := skip 32 s
        if strings.length > 0 then ({ beat with Chord := chord }, s)
        else (beat, s)

/-- The point-reading loop of `readTremoloBar` (lines 880-903). -/
def readTremoloBarPoints : Nat → List TremoloPoint → PSt →
    List TremoloPoint × PSt × Bool
  | 0, points, s => (points, s, true)
  | n + 1, points, s =>
    let (position, s, ok) := readInt s
    if !ok then (points, s, false)
    else
      let (value, s, ok2) := readInt s
      if !ok2 then (points, s, false)
      else
        let (_, s, _) := readByte s
        let point : TremoloPoint :=
          { Position := roundHalfAway ((position : ℚ) * 1 / 1),
            Value := roundHalfAway ((value : ℚ) / (1 * 0x2f)) }
        readTremoloBarPoints n (points ++ [point]) s

/-- `readTremoloBar` (lines 870-908). -/
def readTremoloBar (effect : NoteEffect) (s : PSt) : NoteEffect × PSt :=
  let s := skip 5 s
  let (numPoints, s, ok) := readInt s
  if !ok then (effect, s)
  else
    let (points, s, done) := readTremoloBarPoints numPoints.toNat [] s
    if !done then (effect, s)
    else if points.length > 0 then ({ effect with TremoloBar := ⟨points⟩ }, s)
    else (effect, s)

/-- Tail of `readBeatEffects` after the optional tapping/slapping byte
(lines 835-864): the tremolo bar, the stroke bytes and the final gated
skip. -/
def readBeatEffectsTail (beat : Beat) (noteEffect : NoteEffect)
    (flags1 flags2 : Nat) (s : PSt) : Beat × NoteEffect × PSt :=
  let tb := if flags2 &&& 0x04 ≠ 0 then readTremoloBar noteEffect s
    else (noteEffect, s)
  let noteEffect := tb.1
  let s := tb.2
  if flags1 &&& 0x40 ≠ 0 then
    let r4 := readByte s
    if r4.2.2 = false then (beat, noteEffect, r4.2.1)
    else
      let r5 := readByte r4.2.1
      if r5.2.2 = false then (beat, noteEffect, r5.2.1)
      else
        let beat :=
          if r4.1 > 0 then
            { beat with Stroke :=
              { Direction := "stroke_up", Value := "stroke_down" } }
          else if r5.1 > 0 then
            { beat with Stroke :=
              { Direction := "stroke_down", Value := "stroke_down" } }
          else beat
        let s := if flags2 &&& 0x02 ≠ 0 then (readByte r5.2.1).2.1 else r5.2.1
        (beat, noteEffect, s)
  else
    let s := if flags2 &&& 0x02 ≠ 0 then (readByte s).2.1 else s
    (beat, noteEffect, s)

/-- `readBeatEffects` (lines 808-865). -/
def readBeatEffects (beat : Beat) (noteEffect : NoteEffect) (s : PSt) :
    Beat × NoteEffect × PSt :=
  let r1 := readUnsignedByte s
  if r1.2.2 = false then (beat, noteEffect, r1.2.1)
  else
    let flags1 := r1.1
    let r2 := readUnsignedByte r1.2.1
    if r2.2.2 = false then (beat, noteEffect, r2.2.1)
    else
      let flags2 := r2.1
      let noteEffect :=
        { noteEffect with
          FadeIn := flags1 &&& 0x10 ≠ 0
          Vibrato := flags1 &&& 0x02 ≠ 0 }
      if flags1 &&& 0x20 ≠ 0 then
        let r3 := readUnsignedByte r2.2.1
        if r3.2.2 = false then (beat, noteEffect, r3.2.1)
        else
          let noteEffect :=
            { noteEffect with
              Tapping := r3.1 = 1
              Slapping := r3.1 = 2
              Pop := r3.1 = 3 }
          readBeatEffectsTail beat noteEffect flags1 flags2 r3.2.1
      else readBeatEffectsTail beat noteEffect flags1 flags2 r2.2.1

/-- `readMixChange` (lines 717-805).  Only `tempo.Value` is mutated; the
byte-valued mix parameters are Go bytes, so the `>= 0` follow-up tests are
always true and each consumes one further byte. -/
def readMixChange (tempo : Tempo) (s : PSt) : Tempo × PSt :=
  let (_, s, _) := readByte s
  let s := skip 16 s
  let (volume, s, ok) := readByte s
  if !ok then (tempo, s)
  else
    let (pan, s, ok) := readByte s
    if !ok then (tempo, s)
    else
      let (chorus, s, ok) := readByte s
      if !ok then (tempo, s)
      else
        let (reverb, s, ok) := readByte s
        if !ok then (tempo, s)
        else
          let (phaser, s, ok) := readByte s
          if !ok then (tempo, s)
          else
            let (tremolo, s, ok) := readByte s
            if !ok then (tempo, s)
            else
              let (_, s, _) := readStringByteSizeOfInteger s
              let (tempoValue, s, ok) := readInt s
              if !ok then (tempo, s)
              else
                let s := if (volume : Int) ≥ 0 then (readByte s).2.1 else s
                let s := if (pan : Int) ≥ 0 then (readByte s).2.1 else s
                let s := if (chorus : Int) ≥ 0 then (readByte s).2.1 else s
                let s := if (reverb : Int) ≥ 0 then (readByte s).2.1 else s
                let s := if (phaser : Int) ≥ 0 then (readByte s).2.1 else s
                let s := if (tremolo : Int) ≥ 0 then (readByte s).2.1 else s
                let (tempo, s) :=
                  if tempoValue ≥ 0 then
                    let tempo := { tempo with Value := tempoValue }
                    let s := skip 1 s
                    let s := if s.versionIndex > 0 then skip 1 s else s
                    (tempo, s)
                  else (tempo, s)
                let (_, s, _) := readByte s
                let s := skip 1 s
                if s.versionIndex > 0 then
                  let (_, s, _) := readStringByteSizeOfInteger s
                  let (_, s, _) := readStringByteSizeOfInteger s
                  (tempo, s)
                else (tempo, s)

/-- The note-reading loop of `readBeat` (lines 1115-1121): bits 6 down to
0 of the string mask, mapped to string indices 0 up to 6. -/
def readBeatNotes : List Nat → Nat → Track → NoteEffect → List Note → PSt →
    List Note × PSt
  | [], _, _, _, notes, s => (notes, s)
  | i :: rest, stringFlags, track, effect, notes, s =>
    if stringFlags &&& (1 <<< i) ≠ 0 ∧ 6 - i < track.GuitarStrings.length then
      let (note, s1) := readNote (track.GuitarStrings.getD (6 - i) {}) track effect s
      readBeatNotes rest stringFlags track effect (notes ++ [note]) s1
    else readBeatNotes rest stringFlags track effect notes s

/-- Tail of `readBeat` from the duration read onward (lines 1093-1139):
the gated chord/text/beat-effects/mix-change decoders, the string mask and
note loop, the voice write-back, and the trailing reserved bytes.  `idx`
is the index in `measure.Beats` of the beat the Go code holds a pointer
to. -/
def readBeatAfterType (flags : Nat) (measure : Measure) (idx : Nat)
    (track : Track) (tempo : Tempo) (voiceIndex : Nat) (s : PSt) :
    ℚ × Measure × Tempo × PSt :=
  let rd := readDuration flags s
  let duration := rd.1
  let s := rd.2
  let effect : NoteEffect := {}
  let mc :=
    if flags &&& 0x02 ≠ 0 then
      let rc := readChord track.GuitarStrings (measure.Beats.getD idx {}) s
      ({ measure with Beats := measure.Beats.set idx rc.1 }, rc.2)
    else (measure, s)
  let measure := mc.1
  let s := mc.2
  let mt :=
    if flags &&& 0x04 ≠ 0 then
      let rt := readText (measure.Beats.getD idx {}) s
      ({ measure with Beats := measure.Beats.set idx rt.1 }, rt.2)
    else (measure, s)
  let measure := mt.1
  let s := mt.2
  let me :=
    if flags &&& 0x08 ≠ 0 then
      let re := readBeatEffects (measure.Beats.getD idx {}) effect s
      ({ measure with Beats := measure.Beats.set idx re.1 }, re.2.1, re.2.2)
    else (measure, effect, s)
  let measure := me.1
  let effect := me.2.1
  let s := me.2.2
  let tm := if flags &&& 0x10 ≠ 0 then readMixChange tempo s else (tempo, s)
  let tempo := tm.1
  let s := tm.2
  let rsf := readUnsignedByte s
  if rsf.2.2 = false then (0, measure, tempo, rsf.2.1)
  else
    let stringFlags := rsf.1
    let beat := measure.Beats.getD idx {}
    let voice := beat.Voices.getD voiceIndex {}
    let rn := readBeatNotes [6, 5, 4, 3, 2, 1, 0] stringFlags track effect
      voice.Notes rsf.2.1
    let voice := { voice with Notes := rn.1 }
    let voice := { voice with Duration := { voice.Duration with Value := duration } }
    let beat := { beat with Voices := beat.Voices.set voiceIndex voice }
    let measure := { measure with Beats := measure.Beats.set idx beat }
    let s := skip 1 rn.2
    let rb := readByte s
    if rb.2.2 = false then (0, measure, tempo, rb.2.1)
    else
      let s := if rb.1 &&& 0x02 ≠ 0 then skip 1 rb.2.1 else rb.2.1
      if voice.Notes.length ≠ 0 then (duration, measure, tempo, s)
      else (0, measure, tempo, s)

/-- `readBeat` (lines 1073-1140).  The beat the Go code mutates through a
pointer is tracked by its index in the measure's beat list; every Go
write-through is mirrored by re-setting that index. -/
def readBeat (start : Int) (measure : Measure) (track : Track)
    (tempo : Tempo) (voiceIndex : Nat) (s : PSt) :
    ℚ × Measure × Tempo × PSt :=
  let rf := readUnsignedByte s
  if rf.2.2 = false then (0, measure, tempo, rf.2.1)
  else
    let flags := rf.1
    let gb := getBeat measure start
    let measure := gb.1
    let idx := gb.2
    let s := rf.2.1
    if flags &&& 0x40 ≠ 0 then
      let rb := readUnsignedByte s
      if rb.2.2 = false then (0, measure, tempo, rb.2.1)
      else
        let beatType := rb.1
        let beat := measure.Beats.getD idx {}
        let voice := beat.Voices.getD voiceIndex {}
        let voice := { voice with Empty := beatType &&& 0x02 = 0 }
        let beat := { beat with Voices := beat.Voices.set voiceIndex voice }
        readBeatAfterType flags
          { measure with Beats := measure.Beats.set idx beat } idx track tempo
          voiceIndex rb.2.1
    else readBeatAfterType flags measure idx track tempo voiceIndex s

/-! ## Measure decoding and empty-beat pruning (lines 639-679) -/

/-- `isPercussionChannel` (lines 1511-1518): flag of the first channel
whose id matches, else false. -/
def isPercussionChannel (channels : List Channel) (channelId : Int) : Bool :=
  match channels.find? (fun c => c.ID = channelId) with
  | some channel => channel.IsPercussionChannel
  | none => false

/-- `getClef` (lines 1524-1534). -/
def getClef (channels : List Channel) (track : Track) : String :=
  if !isPercussionChannel channels track.ChannelID ∧
      track.GuitarStrings.any (fun gstr => gstr.Value ≤ 34) then "CLEF_BASS"
  else "CLEF_TREBLE"

/-- The `for k` beat loop of one voice (lines 648-650), accumulating the
running start time (a Go `float64`, modelled over `ℚ`; `readBeat` receives
it through the truncating `int32(start)` conversion). -/
def readVoiceBeats : Nat → ℚ → Measure → Track → Tempo → Nat → PSt →
    Measure × Tempo × PSt
  | 0, _, measure, _, tempo, _, s => (measure, tempo, s)
  | k + 1, start, measure, track, tempo, voiceIndex, s =>
    let (d, measure, tempo, s) := readBeat (ratTrunc start) measure track tempo voiceIndex s
    readVoiceBeats k (start + d) measure track tempo voiceIndex s

/-- One iteration of the voice loop of `readMeasure` (lines 640-651); the
`Bool` is false when the beat-count read failed, which makes `readMeasure`
return before pruning. -/
def readMeasureVoice (voiceIndex : Nat) (measure : Measure) (track : Track)
    (tempo : Tempo) (s : PSt) : Measure × Tempo × PSt × Bool :=
  let start : ℚ := (measure.Start : ℚ)
  let (beats, s, ok) := readInt s
  if !ok then (measure, tempo, s, false)
  else
    let (measure, tempo, s) :=
      readVoiceBeats beats.toNat start measure track tempo voiceIndex s
    (measure, tempo, s, true)

/-- Whether every voice of the beat ended with zero notes — the condition
of the `emptyBeats` collection loop (lines 653-666). -/
def beatIsEmpty (b : Beat) : Bool :=
  b.Voices.all (fun v => v.Notes.isEmpty)

/-- The indices recorded by the `emptyBeats` pointer-collection loop
(lines 653-666): positions of all-empty beats in the decoded beat list, in
increasing order.  Each pointer `&measure.Beats[i]` is an address into the
slice's backing array, i.e. the original position `i`. -/
def emptyBeatIdxs (l : List Beat) : List Nat :=
  (List.range l.length).filter (fun i => beatIsEmpty (l.getD i {}))

/-- The removal loop (lines 668-675).  `append(Beats[:i], Beats[i+1:]...)`
reuses the slice's backing array, so after earlier removals a recorded
pointer still denotes backing position `a`, and the scan
`beatPtr == &measure.Beats[i]` matches exactly when `i = a` and `a` is
within the current length; the element then removed is whatever the shifts
have moved into position `a`. -/
def removeEmptyBeats : List Nat → List Beat → List Beat
  | [], l => l
  | a :: rest, l =>
    removeEmptyBeats rest (if a < l.length then l.eraseIdx a else l)

/-- The voice-reading phase of `readMeasure` (lines 640-651): voice 0 then
voice 1, each behind a beat-count read whose failure aborts the measure. -/
def readMeasurePhase1 (measure : Measure) (track : Track) (tempo : Tempo)
    (s : PSt) : Measure × Tempo × PSt × Bool :=
  let (measure, tempo, s, ok) := readMeasureVoice 0 measure track tempo s
  if !ok then (measure, tempo, s, false)
  else readMeasureVoice 1 measure track tempo s

/-- `readMeasure` (lines 639-679): the two voice passes, the empty-beat
pruning, then clef and key signature assignment.  The early `return` on a
failed beat-count read skips pruning, clef and key signature. -/
def readMeasure (measure : Measure) (track : Track) (tempo : Tempo)
    (keySignature : Int) (s : PSt) : Measure × Tempo × PSt :=
  let (measure, tempo, s, ok) := readMeasurePhase1 measure track tempo s
  if !ok then (measure, tempo, s)
  else
    let measure :=
      { measure with Beats := removeEmptyBeats (emptyBeatIdxs measure.Beats) measure.Beats }
    let measure :=
      { measure with
        Clef := { measure.Clef with Name := getClef s.channels track }
        KeySignature := keySignature }
    (measure, tempo, s)

/-! ## The metadata header path of `NewParser` (lines 92-171) -/

/-- The fields `NewParser` populates after the buffer is loaded. -/
structure ParserInit where
  st : PSt := {}
  major : Nat := 0
  minor : Nat := 0
  title : String := ""
  subtitle : String := ""
  artist : String := ""
  album : String := ""
  lyricsAuthor : String := ""
  musicAuthor : String := ""
  copyright : String := ""
  tab : String := ""
  instructions : String := ""
  deriving Repr, DecidableEq

/-- Digit-run to number, as `strconv.Atoi` on a matched `\d+` group. -/
def atoiDigits (l : List Char) : Nat :=
  l.foldl (fun acc c => acc * 10 + (c.toNat - 48)) 0

/-- The `(\d+)\.(\d+)` regular expression of lines 109-113 as a leftmost
scan: at each position try a maximal digit run, a literal dot, and a
nonempty digit run; on failure restart one character later (backtracking
inside a digit run can never help, since a digit run contains no dot). -/
def findMajorMinor : List Char → Option (Nat × Nat)
  | [] => none
  | c :: rest =>
    if c.isDigit then
      let d1 := (c :: rest).takeWhile Char.isDigit
      let r1 := (c :: rest).dropWhile Char.isDigit
      match r1 with
      | '.' :: r2 =>
        let d2 := r2.takeWhile Char.isDigit
        if d2.isEmpty then findMajorMinor rest
        else some (atoiDigits d1, atoiDigits d2)
      | _ => findMajorMinor rest
    else findMajorMinor rest

/-- `NewParser` from the point the file buffer is loaded (lines 92-171):
version check, version-number extraction, then nine metadata strings, each
failure fatal (`nil, err` — modelled as `none`). -/
def newParser (fileBuffer : List Nat) : Option ParserInit :=
  let s : PSt := { buf := fileBuffer, pos := 0 }
  let (version, s, ok) := readVersion s
  if !ok then none
  else
    match isSupportedVersion version with
    | none => none
    | some vi =>
      let s := { s with versionIndex := (vi : Int) }
      match findMajorMinor version.data with
      | none => none
      | some (major, minor) =>
        let (title, s, ok) := readStringByteSizeOfInteger s
        if !ok then none
        else
          let (subtitle, s, ok) := readStringByteSizeOfInteger s
          if !ok then none
          else
            let (artist, s, ok) := readStringByteSizeOfInteger s
            if !ok then none
            else
              let (album, s, ok) := readStringByteSizeOfInteger s
              if !ok then none
              else
                let (lyricsAuthor, s, ok) := readStringByteSizeOfInteger s
                if !ok then none
                else
                  let (musicAuthor, s, ok) := readStringByteSizeOfInteger s
                  if !ok then none
                  else
                    let (copyright, s, ok) := readStringByteSizeOfInteger s
                    if !ok then none
                    else
                      let (tab, s, ok) := readStringByteSizeOfInteger s
                      if !ok then none
                      else
                        let (instructions, s, ok) := readStringByteSizeOfInteger s
                        if !ok then none
                        else some
                          { st := s, major := major, minor := minor,
                            title := title, subtitle := subtitle,
                            artist := artist, album := album,
                            lyricsAuthor := lyricsAuthor,
                            musicAuthor := musicAuthor,
                            copyright := copyright, tab := tab,
                            instructions := instructions }

/-! ## `readLongString` of the lightweight metadata path (gpfile.go
lines 129-149) -/

/-- Result of `readLongString`: the decoded string and the unconsumed rest
of the reader's stream, a read error, or the panic `make([]byte, size-1)`
raises for a negative length. -/
inductive LSRes where
  | ok (val : String) (rest : List Nat) : LSRes
  | err : LSRes
  | panicked : LSRes
  deriving Repr, DecidableEq

/-- `readLongString` (gpfile.go lines 129-149): a 4-byte little-endian
size, then always one further byte, whose value replaces the size exactly
when the 4-byte size was zero; then `size - 1` content bytes. -/
def readLongString (stream : List Nat) : LSRes :=
  match stream with
  | b0 :: b1 :: b2 :: b3 :: rest =>
    let u : Nat := (b0 % 256) + (b1 % 256) * 256 + (b2 % 256) * 65536 +
      (b3 % 256) * 16777216
    let size : Int := if u < 2 ^ 31 then (u : Int) else (u : Int) - 2 ^ 32
    match rest with
    | [] => .err
    | s0 :: rest2 =>
      let size : Int := if size = 0 then (s0 : Int) else size
      if size - 1 < 0 then .panicked
      else if rest2.length < (size - 1).toNat then .err
      else .ok (goStr (rest2.take (size - 1).toNat)) (rest2.drop (size - 1).toNat)
  | _ => .err

/-! ## Concrete decoding histories and buffers used by the claims -/

/-- Concrete duration record used by the C6 witness: a sixteenth
(`Value = 16`), dotted, at division 1:1. -/
def c6Duration : Duration :=
  { Value := 16, Dotted := true, DoubleDotted := false,
    Division := { Times := 1, Enters := 1 } }

/-- Input for C3: two tracks each referencing GM channel 10 (index 9)
first and GM channel 11 second, against the freshly decoded 64-entry
channel table (all ids still 0). -/
def gmBindS0 : PSt :=
  { buf := [10, 0, 0, 0, 11, 0, 0, 0, 10, 0, 0, 0, 11, 0, 0, 0],
    channels := List.replicate 64 {} }

/-- The first track's binding. -/
def gmBindFirst : Track × PSt := readChannel {} gmBindS0

/-- The second track's binding, decoded from the state the first left. -/
def gmBindSecond : Track × PSt := readChannel {} gmBindFirst.2

/-- A non-tied history note with value 5 on string 3, as in the claim's
example history `[measure0: note(string=3,value=5)]`. -/
def c1HistoryNote : Note := { String := 3, TiedNote := false, Value := 5 }

/-- A track whose decoding history is one measure holding one beat whose
first voice carries `c1HistoryNote`. -/
def c1Track : Track :=
  { GuitarStrings := [{ Number := 3, Value := 64 }],
    Measures :=
      [{ Start := 0,
         Beats := [{ Start := 0, Voices := [{ Notes := [c1HistoryNote] }, {}] }] }] }

/-- The same history with the note itself marked tied: the lookup then
returns its value. -/
def c1TiedNote : Note := { String := 3, TiedNote := true, Value := 5 }

/-- Track whose history holds `c1TiedNote`. -/
def c1TiedTrack : Track :=
  { GuitarStrings := [{ Number := 3, Value := 64 }],
    Measures :=
      [{ Start := 0,
         Beats := [{ Start := 0, Voices := [{ Notes := [c1TiedNote] }, {}] }] }] }

/-- Every beat of the list has zero notes in every voice. -/
def AEb (l : List Beat) : Prop := ∀ b ∈ l, beatIsEmpty b = true

/-- Every beat of the list carries exactly the two voice slots `getBeat`
creates. -/
def VL2 (l : List Beat) : Prop := ∀ b ∈ l, b.Voices.length = 2

/-- Claim C2 counterexample input: for each of the two voices, a beat
count of 2 followed by two beat records — the first carrying one note on
string 1, the second a duration-only (note-less) beat. -/
def c2Buf : List Nat :=
  [2, 0, 0, 0,
   0, 0, 64, 32, 1, 5, 0, 0, 0,
   0, 0, 0, 0, 0,
   2, 0, 0, 0,
   0, 1, 64, 32, 1, 7, 0, 0, 0,
   0, 0, 0, 0, 0]

/-- Track for the C2 counterexample: a single guitar string. -/
def c2Track : Track := { GuitarStrings := [{ Number := 1, Value := 64 }] }

/-! ## Claim C6: duration decoding -/

/-- Claim C6: duration decoding computes note value `2^(b+4)/4` (so `b = 0`
is a quarter note, value 4); the time is `960 × 4 / value`, increased by
half when the dotted flag (beat-flags bit 0x01) is set, then multiplied by
`Times/Enters` (1/1 without a tuplet).  Concretely `b = 2` undotted at
division 1:1 gives 240, dotted gives 360, and with tuplet 3:2 gives 160. -/
theorem duration_decoding :
    durationValue 0 = 4 ∧
    (readDuration 0 { buf := [2] }).1 = 240 ∧
    (readDuration 1 { buf := [2] }).1 = 360 ∧
    (readDuration 0x20 { buf := [2, 3, 0, 0, 0] }).1 = 160 ∧
    ∀ d : Duration, d.DoubleDotted = false →
      getTime d = QUARTER_TIME * 4 / d.Value * (if d.Dotted then (3 : ℚ) / 2 else 1) *
        (d.Division.Times : ℚ) / (d.Division.Enters : ℚ) := by
  refine ⟨by norm_num [durationValue], ?_, ?_, ?_, ?_⟩
  · norm_num [readDuration, readByte, durationValue, getTime, divisionOfType,
      QUARTER_TIME]
  · norm_num [readDuration, readByte, durationValue, getTime, divisionOfType,
      QUARTER_TIME]
  · norm_num [readDuration, readByte, readInt, durationValue, getTime,
      divisionOfType, QUARTER_TIME]
  intro d hdd
  cases hd : d.Dotted <;> (simp [getTime, hdd, hd]; try ring)

/-- Witness for C6: the general `getTime` formula instantiated at a
concrete dotted sixteenth evaluates to 360. -/
theorem duration_decoding_witness :
    getTime c6Duration = QUARTER_TIME * 4 / c6Duration.Value *
      (if c6Duration.Dotted then (3 : ℚ) / 2 else 1) *
      (c6Duration.Division.Times : ℚ) / (c6Duration.Division.Enters : ℚ) :=
  duration_decoding.2.2.2.2 c6Duration rfl

/-! ## Claim C7: key signature -/

/-- Claim C7: `readKeySignature` offsets the raw byte by +7 in wrapping
byte arithmetic: a successfully read byte `k` yields `(7 + k) % 256`; raw
0 yields 7 and raw 250 yields 1. -/
theorem keySignature_offset (s : PSt) (h : s.pos < s.buf.length) :
    readKeySignature s =
      ((7 + s.buf.getD s.pos 0) % 256, { s with pos := s.pos + 1 }) ∧
    (readKeySignature { buf := [0] }).1 = 7 ∧
    (readKeySignature { buf := [250] }).1 = 1 := by
  refine ⟨?_, by decide, by decide⟩
  unfold readKeySignature readByte
  rw [if_neg (by omega)]
  simp

/-- Witness for C7 at a one-byte buffer holding 250. -/
theorem keySignature_offset_witness :
    readKeySignature { buf := [250] } =
      ((7 + (PSt.mk [250] 0 [] 0).buf.getD 0 0) % 256,
        { PSt.mk [250] 0 [] 0 with pos := 0 + 1 }) ∧
    (readKeySignature { buf := [0] }).1 = 7 ∧
    (readKeySignature { buf := [250] }).1 = 1 :=
  keySignature_offset { buf := [250] } (by decide)

/-! ## Claim C9: the LongString decoder -/

/-- Counterexample to C9 as stated: for the nonzero 4-byte size 2 the
claim predicts 4 prefix bytes plus one content byte consumed, i.e. result
`"A"` with `[66]` left over; the code also consumes the extra length byte
and returns `"B"` with nothing left. -/
theorem longString_claim_counterexample :
    readLongString [2, 0, 0, 0, 65, 66] = .ok "B" [] ∧
    LSRes.ok "B" [] ≠ LSRes.ok "A" [66] := by
  exact ⟨by decide, by decide⟩

/-- Claim C9 as amended: `readLongString` reads the 4-byte size, then
always one further byte; that byte's value becomes the size exactly when
the 4-byte size was zero; then `size − 1` content bytes follow (so a
nonzero 4-byte size `n` consumes `4 + 1 + (n − 1)` bytes and the extra
byte is never part of the content). -/
theorem longString_decode (b0 b1 b2 b3 x n : Nat) (rest : List Nat)
    (hu : b0 % 256 + b1 % 256 * 256 + b2 % 256 * 65536 +
      b3 % 256 * 16777216 = n)
    (hn : 0 < n) (hn2 : n < 2 ^ 31) (hlen : n - 1 ≤ rest.length) :
    readLongString (b0 :: b1 :: b2 :: b3 :: x :: rest) =
      .ok (goStr (rest.take (n - 1))) (rest.drop (n - 1)) ∧
    ∀ y : Nat, ∀ zs : List Nat, 0 < y → y - 1 ≤ zs.length →
      readLongString (0 :: 0 :: 0 :: 0 :: y :: zs) =
        .ok (goStr (zs.take (y - 1))) (zs.drop (y - 1)) := by
  have htn : ∀ m : Nat, 0 < m → ((m : Int) - 1).toNat = m - 1 := by
    intro m hm; omega
  constructor
  · simp only [readLongString]
    rw [hu]
    split_ifs <;> first
      | omega
      | (rw [htn n hn])
  · intro y zs hy hzs
    simp only [readLongString]
    norm_num
    rw [if_neg (by omega), if_neg (by omega)]

/-- Witness for C9 at size bytes `[2,0,0,0]`, extra byte 9, content
`[65, 66]`, and for the zero-size fallback with length byte 3. -/
theorem longString_decode_witness :
    (readLongString [2, 0, 0, 0, 9, 65, 66] =
      .ok (goStr ([65, 66].take 1)) ([65, 66].drop 1) ∧
    ∀ y : Nat, ∀ zs : List Nat, 0 < y → y - 1 ≤ zs.length →
      readLongString (0 :: 0 :: 0 :: 0 :: y :: zs) =
        .ok (goStr (zs.take (y - 1))) (zs.drop (y - 1))) ∧
    readLongString [0, 0, 0, 0, 3, 65, 66] =
      .ok (goStr ([65, 66].take 2)) ([65, 66].drop 2) := by
  refine ⟨longString_decode 2 0 0 0 9 2 [65, 66] (by decide) (by decide)
    (by decide) (by decide), ?_⟩
  exact (longString_decode 2 0 0 0 9 2 [65, 66] (by decide) (by decide)
    (by decide) (by decide)).2 3 [65, 66] (by decide) (by decide)

/-! ## Claim C4: all-or-nothing primitive reads -/

/-- Counterexample to C4 as stated: `readString` with the negative size
−1 (reachable from `readStringInteger`) neither succeeds nor fails with an
out-of-bounds error — the bounds check passes vacuously and the Go slice
expression panics. -/
theorem readString_negative_panics :
    readString (-1) { buf := [0, 0, 0], pos := 2 } = .panicked := by decide

/-- Claim C4 as amended: `readInt`, `readByte` and `readUnsignedByte`
either succeed advancing the position by exactly 4, 1 and 1, or fail with
the position (and the whole state) unchanged, and `readString` does the
same for any nonnegative size, advancing by exactly `size`; for a negative
size `readString` panics instead of returning an error. -/
theorem primitive_reads_all_or_nothing (s : PSt) (size : Int)
    (hsize : 0 ≤ size) :
    ((readInt s).2 = ({ s with pos := s.pos + 4 }, true) ∨
      (readInt s).2 = (s, false)) ∧
    ((readByte s).2 = ({ s with pos := s.pos + 1 }, true) ∨
      (readByte s).2 = (s, false)) ∧
    ((readUnsignedByte s).2 = ({ s with pos := s.pos + 1 }, true) ∨
      (readUnsignedByte s).2 = (s, false)) ∧
    ((∃ v, readString size s = .ok v { s with pos := s.pos + size.toNat }) ∨
      readString size s = .err s) := by
  refine ⟨?_, ?_, ?_, ?_⟩
  · unfold readInt; split
    · right; rfl
    · left; rfl
  · unfold readByte; split
    · right; rfl
    · left; rfl
  · unfold readUnsignedByte; split
    · right; rfl
    · left; rfl
  · unfold readString
    split
    · right; rfl
    · rw [if_neg (by omega)]
      left; exact ⟨_, rfl⟩

/-- Witness for C4 at a 5-byte buffer and size 2. -/
theorem primitive_reads_all_or_nothing_witness :
    (0 : Int) ≤ 2 ∧
    (((readInt { buf := [1, 2, 3, 4, 5] }).2 =
        ({ PSt.mk [1, 2, 3, 4, 5] 0 [] 0 with pos := 0 + 4 }, true) ∨
      (readInt { buf := [1, 2, 3, 4, 5] }).2 = ({ buf := [1, 2, 3, 4, 5] }, false)) ∧
    ((readByte { buf := [1, 2, 3, 4, 5] }).2 =
        ({ PSt.mk [1, 2, 3, 4, 5] 0 [] 0 with pos := 0 + 1 }, true) ∨
      (readByte { buf := [1, 2, 3, 4, 5] }).2 = ({ buf := [1, 2, 3, 4, 5] }, false)) ∧
    ((readUnsignedByte { buf := [1, 2, 3, 4, 5] }).2 =
        ({ PSt.mk [1, 2, 3, 4, 5] 0 [] 0 with pos := 0 + 1 }, true) ∨
      (readUnsignedByte { buf := [1, 2, 3, 4, 5] }).2 = ({ buf := [1, 2, 3, 4, 5] }, false)) ∧
    ((∃ v, readString 2 { buf := [1, 2, 3, 4, 5] } =
        .ok v { PSt.mk [1, 2, 3, 4, 5] 0 [] 0 with pos := 0 + (2 : Int).toNat }) ∨
      readString 2 { buf := [1, 2, 3, 4, 5] } = .err { buf := [1, 2, 3, 4, 5] })) :=
  ⟨by decide, primitive_reads_all_or_nothing { buf := [1, 2, 3, 4, 5] } 2 (by decide)⟩

/-! ## Claim C10: totality of `readStringInteger` -/

/-- Claim C10 evaluated at the failing input: a buffer whose 4-byte length
prefix decodes to −1 makes `readStringInteger` evaluate the inverted Go
slice `FileBuffer[4:3]`, a runtime panic, instead of returning an error. -/
theorem readStringInteger_negative_length_panics :
    readStringInteger { buf := [255, 255, 255, 255] } = .panicked := by decide

/-! ## Claim C3: channel binding -/

/-- Claim C3 evaluated at the failing input: both tracks reference GM
index 9 of a 64-entry table, yet the first resolves to id 65 and the
second to id 66, with a second channel entry appended (66 entries total) —
the id written into the by-value copy is never stored back into the table
slot, so the dedup branch never sees it.  The two recorded GM-index
parameters of the appended channel do both read "9", as claimed. -/
theorem channel_binding_no_dedup :
    gmBindFirst.1.ChannelID = 65 ∧
    gmBindSecond.1.ChannelID = 66 ∧
    gmBindSecond.2.channels.length = 66 ∧
    (gmBindFirst.2.channels.getD 64 {}).Parameters =
      [{ Key := "gm channel 1", Value := "9" },
       { Key := "gm channel 2", Value := "9" }] := by decide

/-! ## Claim C8: the channel table -/

theorem readInt_of_le (s : PSt) (h : s.pos + 4 ≤ s.buf.length) :
    (readInt s).2 = ({ s with pos := s.pos + 4 }, true) := by
  unfold readInt; rw [if_neg (by omega)]

theorem readByte_of_lt (s : PSt) (h : s.pos < s.buf.length) :
    (readByte s).2 = ({ s with pos := s.pos + 1 }, true) := by
  unfold readByte; rw [if_neg (by omega)]

theorem readUnsignedByte_of_lt (s : PSt) (h : s.pos < s.buf.length) :
    (readUnsignedByte s).2 = ({ s with pos := s.pos + 1 }, true) := by
  unfold readUnsignedByte; rw [if_neg (by omega)]

theorem readInt_eta (s : PSt) (h : s.pos + 4 ≤ s.buf.length) :
    readInt s = ((readInt s).1, { s with pos := s.pos + 4 }, true) := by
  rw [← readInt_of_le s h]

theorem readByte_eta (s : PSt) (h : s.pos < s.buf.length) :
    readByte s = ((readByte s).1, { s with pos := s.pos + 1 }, true) := by
  rw [← readByte_of_lt s h]

/-- A channel record consumes exactly 13 bytes when the buffer suffices. -/
theorem readChannelRecord_state (i : Nat) (s : PSt)
    (h : s.pos + 13 ≤ s.buf.length) :
    (readChannelRecord i s).2 = { s with pos := s.pos + 13 } := by
  unfold readChannelRecord
  rw [readInt_eta s (by omega)]; dsimp only
  rw [readByte_eta { s with pos := s.pos + 4 } (by simp; omega)]; dsimp only
  rw [readByte_eta { s with pos := s.pos + 4 + 1 } (by simp; omega)]; dsimp only
  rw [readByte_eta { s with pos := s.pos + 4 + 1 + 1 } (by simp; omega)]; dsimp only
  rw [readByte_eta { s with pos := s.pos + 4 + 1 + 1 + 1 } (by simp; omega)]
  dsimp only
  rw [readByte_eta { s with pos := s.pos + 4 + 1 + 1 + 1 + 1 } (by simp; omega)]
  dsimp only
  rw [readByte_eta { s with pos := s.pos + 4 + 1 + 1 + 1 + 1 + 1 } (by simp; omega)]
  dsimp only
  rw [readByte_eta { s with pos := s.pos + 4 + 1 + 1 + 1 + 1 + 1 + 1 } (by simp; omega)]
  dsimp only
  simp [skip, PSt.mk.injEq]

/-- The bank label, percussion flag and program clamp of one record,
independent of the byte content. -/
theorem readChannelRecord_fields (i : Nat) (s : PSt) :
    (readChannelRecord i s).1.IsPercussionChannel = decide (i = 9) ∧
    (readChannelRecord i s).1.Bank =
      (if i = 9 then "default percussion bank" else "default bank") ∧
    0 ≤ (readChannelRecord i s).1.Program := by
  unfold readChannelRecord
  obtain ⟨prog, s1, o1, h1⟩ : ∃ v t o, readInt s = (v, t, o) :=
    ⟨(readInt s).1, (readInt s).2.1, (readInt s).2.2, by rw [Prod.mk.eta]⟩
  obtain ⟨b1, s2, o2, h2⟩ : ∃ v t o, readByte s1 = (v, t, o) :=
    ⟨(readByte s1).1, (readByte s1).2.1, (readByte s1).2.2, by rw [Prod.mk.eta]⟩
  obtain ⟨b2, s3, o3, h3⟩ : ∃ v t o, readByte s2 = (v, t, o) :=
    ⟨(readByte s2).1, (readByte s2).2.1, (readByte s2).2.2, by rw [Prod.mk.eta]⟩
  obtain ⟨b3, s4, o4, h4⟩ : ∃ v t o, readByte s3 = (v, t, o) :=
    ⟨(readByte s3).1, (readByte s3).2.1, (readByte s3).2.2, by rw [Prod.mk.eta]⟩
  obtain ⟨b4, s5, o5, h5⟩ : ∃ v t o, readByte s4 = (v, t, o) :=
    ⟨(readByte s4).1, (readByte s4).2.1, (readByte s4).2.2, by rw [Prod.mk.eta]⟩
  obtain ⟨b5, s6, o6, h6⟩ : ∃ v t o, readByte s5 = (v, t, o) :=
    ⟨(readByte s5).1, (readByte s5).2.1, (readByte s5).2.2, by rw [Prod.mk.eta]⟩
  obtain ⟨b6, s7, o7, h7⟩ : ∃ v t o, readByte s6 = (v, t, o) :=
    ⟨(readByte s6).1, (readByte s6).2.1, (readByte s6).2.2, by rw [Prod.mk.eta]⟩
  obtain ⟨b7, s8, o8, h8⟩ : ∃ v t o, readByte s7 = (v, t, o) :=
    ⟨(readByte s7).1, (readByte s7).2.1, (readByte s7).2.2, by rw [Prod.mk.eta]⟩
  rw [h1]; dsimp only
  rw [h2]; dsimp only
  rw [h3]; dsimp only
  rw [h4]; dsimp only
  rw [h5]; dsimp only
  rw [h6]; dsimp only
  rw [h7]; dsimp only
  rw [h8]; dsimp only
  by_cases h9 : i = 9 <;> by_cases hp : prog < 0 <;>
    simp [h9, hp] <;> omega

/-- Unfolding equation for one step of the channel-table loop. -/
theorem readChannelsAux_cons (i : Nat) (rest : List Nat) (s : PSt) :
    readChannelsAux (i :: rest) s =
      ((readChannelRecord i s).1 ::
        (readChannelsAux rest (readChannelRecord i s).2).1,
       (readChannelsAux rest (readChannelRecord i s).2).2) := by
  obtain ⟨c, s1, hc⟩ : ∃ c s1, readChannelRecord i s = (c, s1) :=
    ⟨(readChannelRecord i s).1, (readChannelRecord i s).2, by rw [Prod.mk.eta]⟩
  rw [readChannelsAux, hc]

/-- Length of the decoded channel list equals the index-list length. -/
theorem readChannelsAux_len : ∀ (l : List Nat) (s : PSt),
    (readChannelsAux l s).1.length = l.length := by
  intro l
  induction l with
  | nil => intro s; simp [readChannelsAux]
  | cons i rest ih =>
    intro s
    rw [readChannelsAux_cons]
    simp [ih]

/-- State advance of the whole channel-table loop. -/
theorem readChannelsAux_state : ∀ (l : List Nat) (s : PSt),
    s.pos + 13 * l.length ≤ s.buf.length →
    (readChannelsAux l s).2 = { s with pos := s.pos + 13 * l.length } := by
  intro l
  induction l with
  | nil => intro s h; simp [readChannelsAux]
  | cons i rest ih =>
    intro s h
    simp only [List.length_cons] at h
    rw [readChannelsAux_cons]
    rw [readChannelRecord_state i s (by omega)]
    rw [ih { s with pos := s.pos + 13 } (by simp; omega)]
    simp [PSt.mk.injEq]
    omega

/-- Field properties of every decoded record, positionally. -/
theorem readChannelsAux_fields : ∀ (l : List Nat) (s : PSt) (k : Nat),
    k < l.length →
    ((readChannelsAux l s).1.getD k {}).IsPercussionChannel =
      decide (l.getD k 0 = 9) ∧
    ((readChannelsAux l s).1.getD k {}).Bank =
      (if l.getD k 0 = 9 then "default percussion bank" else "default bank") ∧
    0 ≤ ((readChannelsAux l s).1.getD k {}).Program := by
  intro l
  induction l with
  | nil => intro s k hk; simp at hk
  | cons i rest ih =>
    intro s k hk
    rw [readChannelsAux_cons]
    cases k with
    | zero => simpa using readChannelRecord_fields i s
    | succ k =>
      simp only [List.length_cons] at hk
      simpa using ih (readChannelRecord i s).2 k (by omega)

/-- Claim C8: `readChannels` decodes exactly 64 records; whenever the
buffer holds the full 832 bytes the cursor advances by exactly 832
regardless of content; record 9 is the percussion channel with the
percussion bank label, every other record carries the default bank; and
every program number is clamped to be nonnegative. -/
theorem channel_table_decode (s : PSt) (h : s.pos + 832 ≤ s.buf.length) :
    (readChannels s).2 = { s with pos := s.pos + 832 } ∧
    (readChannels s).1.length = 64 ∧
    ∀ k, k < 64 →
      ((readChannels s).1.getD k {}).IsPercussionChannel = decide (k = 9) ∧
      ((readChannels s).1.getD k {}).Bank =
        (if k = 9 then "default percussion bank" else "default bank") ∧
      0 ≤ ((readChannels s).1.getD k {}).Program := by
  refine ⟨?_, ?_, ?_⟩
  · have hst := readChannelsAux_state (List.range 64) s (by simp; omega)
    rw [show (13 : Nat) * (List.range 64).length = 832 by simp] at hst
    exact hst
  · show (readChannelsAux (List.range 64) s).1.length = 64
    rw [readChannelsAux_len]
    simp
  · intro k hk
    have hr : (List.range 64).getD k 0 = k := by
      simp [List.getD_eq_getElem?_getD, List.getElem?_range, hk]
    have hf := readChannelsAux_fields (List.range 64) s k (by simpa using hk)
    rw [hr] at hf
    exact hf

/-- Witness for C8 on an all-zero 832-byte buffer. -/
theorem channel_table_decode_witness :
    (readChannels { buf := List.replicate 832 0 }).2 =
      { PSt.mk (List.replicate 832 0) 0 [] 0 with pos := 0 + 832 } ∧
    (readChannels { buf := List.replicate 832 0 }).1.length = 64 ∧
    ∀ k, k < 64 →
      ((readChannels { buf := List.replicate 832 0 }).1.getD k {}).IsPercussionChannel =
        decide (k = 9) ∧
      ((readChannels { buf := List.replicate 832 0 }).1.getD k {}).Bank =
        (if k = 9 then "default percussion bank" else "default bank") ∧
      0 ≤ ((readChannels { buf := List.replicate 832 0 }).1.getD k {}).Program :=
  channel_table_decode { buf := List.replicate 832 0 } (by rw [List.length_replicate])

/-! ## Claim C5: two-tier error policy -/

/-- On a buffer too short for the 30-byte version slot the version read
fails. -/
theorem readVersion_short (buf : List Nat) (h : buf.length ≤ 30) :
    (readVersion { buf := buf }).2.2 = false := by
  unfold readVersion readStringByte readUnsignedByte
  by_cases h0 : (0 : Nat) ≥ buf.length
  · rw [if_pos h0]
    simp
  · rw [if_neg h0]
    dsimp only
    unfold readByteString
    rw [if_neg (by norm_num)]
    rw [if_pos (by simp; omega)]

/-- Claim C5: a read failure during the version check is fatal — the
caller gets an error and no parser value — while a primitive-read failure
inside the channel-table decoder leaves the affected fields zero-valued
and aborts nothing: all 64 records are still produced, and on a buffer
truncated after one full record the first record keeps its decoded
content while the remaining records are zero-valued. -/
theorem error_policy_two_tier :
    (∀ buf : List Nat, buf.length ≤ 30 → newParser buf = none) ∧
    (∀ s : PSt, (readChannels s).1.length = 64) ∧
    ((readChannels { buf := [5, 0, 0, 0, 1, 2, 3, 4, 5, 6, 7] }).1.getD 0 {}).Program = 5 ∧
    ((readChannels { buf := [5, 0, 0, 0, 1, 2, 3, 4, 5, 6, 7] }).1.getD 0 {}).Volume = 1 ∧
    ((readChannels { buf := [5, 0, 0, 0, 1, 2, 3, 4, 5, 6, 7] }).1.getD 0 {}).Tremolo = 7 ∧
    ((readChannels { buf := [5, 0, 0, 0, 1, 2, 3, 4, 5, 6, 7] }).1.getD 1 {}).Program = 0 ∧
    ((readChannels { buf := [5, 0, 0, 0, 1, 2, 3, 4, 5, 6, 7] }).1.getD 1 {}).Volume = 0 := by
  refine ⟨?_, ?_, by decide, by decide, by decide, by decide, by decide⟩
  · intro buf h
    unfold newParser
    obtain ⟨v, t, o, hv⟩ : ∃ v t o, readVersion { buf := buf } = (v, t, o) :=
      ⟨(readVersion { buf := buf }).1, (readVersion { buf := buf }).2.1,
        (readVersion { buf := buf }).2.2, by rw [Prod.mk.eta]⟩
    have ho := readVersion_short buf h
    rw [hv] at ho
    simp only at ho
    dsimp only
    rw [hv]
    dsimp only
    rw [ho]
    rfl
  · intro s
    show (readChannelsAux (List.range 64) s).1.length = 64
    rw [readChannelsAux_len]
    simp

/-- Witness for C5 at a 3-byte buffer and an arbitrary state. -/
theorem error_policy_two_tier_witness :
    newParser [1, 2, 3] = none ∧
    (readChannels { buf := [9] }).1.length = 64 :=
  ⟨error_policy_two_tier.1 [1, 2, 3] (by decide),
    error_policy_two_tier.2.1 { buf := [9] }⟩

/-! ## Claim C1: tied-note resolution -/

theorem readUnsignedByte_eta (s : PSt) (h : s.pos < s.buf.length) :
    readUnsignedByte s = (s.buf.getD s.pos 0, { s with pos := s.pos + 1 }, true) := by
  unfold readUnsignedByte; rw [if_neg (by omega)]

theorem readByte_full (s : PSt) (h : s.pos < s.buf.length) :
    readByte s = (s.buf.getD s.pos 0, { s with pos := s.pos + 1 }, true) := by
  unfold readByte; rw [if_neg (by omega)]

/-- Counterexample to C1 as stated: with history
`[measure0: note(string=3,value=5)]` (the note not itself tied) and input
`[0x20, 0x02, 0x09, 0]` — note flags with bit 0x20, type byte 2 (tied),
fret byte 9 — the tied note decodes to value 0, not 5 (the lookup demands
a previous note that is itself marked tied), and the cursor ends at
position 4, having consumed the fret byte (without the fret byte it would
end at 3: flags, type, and the unconditional reserved skip). -/
theorem tied_note_claim_counterexample :
    (readNote { Number := 3, Value := 64 } c1Track {}
      { buf := [0x20, 0x02, 0x09, 0] }).1.TiedNote = true ∧
    (readNote { Number := 3, Value := 64 } c1Track {}
      { buf := [0x20, 0x02, 0x09, 0] }).1.Value = 0 ∧
    (readNote { Number := 3, Value := 64 } c1Track {}
      { buf := [0x20, 0x02, 0x09, 0] }).2.pos = 4 := by decide

/-- Claim C1 as amended: for a note record whose flags byte is 0x20 and
whose type byte is 2, `readNote` marks the note tied, still consumes the
fret byte from the stream (the cursor advances by 4: flags, type, fret,
and the reserved skip), and resolves the value through `getTiedNoteValue`
— the most recent previously decoded note on the same string that is
itself marked tied, 0 when none — clamped to `[0, 100)`; and on the
concrete tied history `c1TiedTrack` the lookup yields 5. -/
theorem tied_note_resolution (s : PSt) (track : Track) (gs : GuitarString)
    (eff : NoteEffect)
    (hflags : s.buf.getD s.pos 0 = 0x20)
    (htype : s.buf.getD (s.pos + 1) 0 = 2)
    (hlen : s.pos + 3 ≤ s.buf.length) :
    (readNote gs track eff s).1.TiedNote = true ∧
    (readNote gs track eff s).1.Value =
      (if 0 ≤ getTiedNoteValue gs.Number track ∧
          getTiedNoteValue gs.Number track < 100 then
        getTiedNoteValue gs.Number track
      else 0) ∧
    (readNote gs track eff s).2 = { s with pos := s.pos + 4 } ∧
    getTiedNoteValue 3 c1TiedTrack = 5 := by
  have hmain : readNote gs track eff s =
      ({ String := gs.Number,
         Effect :=
           { eff with
             AccentuatedNote := false
             HeavyAccentuatedNote := false
             GhostNote := false
             DeadNote := false },
         TiedNote := true, Velocity := 0,
         Value := if getTiedNoteValue gs.Number track < 100 then
             getTiedNoteValue gs.Number track
           else 0 },
       { s with pos := s.pos + 4 }) := by
    have hbyte2 : ({ s with pos := s.pos + 1 } : PSt).buf.getD
        ({ s with pos := s.pos + 1 } : PSt).pos 0 = 2 := by simpa using htype
    unfold readNote
    rw [readUnsignedByte_eta s (by omega)]
    dsimp only
    rw [hflags]
    rw [readUnsignedByte_eta { s with pos := s.pos + 1 }
      (by show s.pos + 1 < s.buf.length; omega)]
    dsimp only
    rw [hbyte2]
    norm_num
    simp only [show (32 : Nat) &&& 16 = 0 from by decide,
      show (32 : Nat) &&& 32 = 32 from by decide,
      show (32 : Nat) &&& 128 = 0 from by decide,
      show (32 : Nat) &&& 1 = 0 from by decide,
      show (32 : Nat) &&& 8 = 0 from by decide,
      show (32 : Nat) &&& 2 = 0 from by decide,
      show (32 : Nat) &&& 4 = 0 from by decide,
      show (32 : Nat) &&& 64 = 0 from by decide]
    norm_num
    rw [readByte_full { s with pos := s.pos + 1 + 1 }
      (by show s.pos + 1 + 1 < s.buf.length; omega)]
    norm_num [skip]
    by_cases hv : getTiedNoteValue gs.Number track < 100 <;>
      simp [hv, skip, PSt.mk.injEq]
  refine ⟨by rw [hmain], ?_, by rw [hmain], by decide⟩
  rw [hmain]
  simp

/-! ## Claim C2: empty-beat elision — auxiliary invariants -/

theorem mem_set_cases {α : Type} {b bf : α} :
    ∀ (L : List α) (idx : Nat), b ∈ L.set idx bf → b ∈ L ∨ b = bf := by
  intro L
  induction L with
  | nil => intro idx h; simp at h
  | cons hd tl ih =>
    intro idx h
    cases idx with
    | zero =>
      simp only [List.set_cons_zero] at h
      rcases List.mem_cons.mp h with rfl | h
      · right; rfl
      · left; exact List.mem_cons_of_mem _ h
    | succ n =>
      simp only [List.set_cons_succ] at h
      rcases List.mem_cons.mp h with rfl | h
      · left; exact List.mem_cons_self _ _
      · rcases ih n h with h' | h'
        · left; exact List.mem_cons_of_mem _ h'
        · right; exact h'

theorem AEb_set_backward :
    ∀ (L : List Beat) (idx : Nat) (bf : Beat), AEb (L.set idx bf) →
    beatIsEmpty (L.getD idx {}) = true → AEb L := by
  intro L
  induction L with
  | nil => intro idx bf _ _ b hb; simp at hb
  | cons hd tl ih =>
    intro idx bf hAE hidx b hb
    cases idx with
    | zero =>
      rcases List.mem_cons.mp hb with rfl | hb
      · simpa using hidx
      · exact hAE b (by simp [hb])
    | succ n =>
      rcases List.mem_cons.mp hb with rfl | hb
      · exact hAE b (by simp)
      · exact ih n bf (fun c hc => hAE c (by simp [hc])) (by simpa using hidx) b hb

theorem map_start_set :
    ∀ (L : List Beat) (idx : Nat) (b : Beat),
    b.Start = (L.getD idx {}).Start →
    (L.set idx b).map Beat.Start = L.map Beat.Start := by
  intro L
  induction L with
  | nil => intro idx b _; simp
  | cons hd tl ih =>
    intro idx b hs
    cases idx with
    | zero => simpa using hs
    | succ n => simpa using ih n b (by simpa using hs)

theorem VL2_set {L : List Beat} {idx : Nat} {bf : Beat} (h : VL2 L)
    (hb : bf.Voices.length = 2) : VL2 (L.set idx bf) := by
  intro b hmem
  rcases mem_set_cases L idx hmem with h' | h'
  · exact h b h'
  · rw [h']; exact hb

/-- A `List.set` whose new beat keeps the start and voices of the slot's
current beat does not disturb emptiness in either direction. -/
theorem AEb_set_voices_eq :
    ∀ (L : List Beat) (idx : Nat) (bf : Beat),
    bf.Voices = (L.getD idx {}).Voices → (AEb (L.set idx bf) ↔ AEb L) := by
  intro L
  induction L with
  | nil => intro idx bf _; simp [AEb]
  | cons hd tl ih =>
    intro idx bf hv
    cases idx with
    | zero =>
      simp only [List.getD_cons_zero] at hv
      constructor
      · intro hAE b hb
        rcases List.mem_cons.mp hb with rfl | hb
        · have := hAE bf (by simp)
          simpa [beatIsEmpty, hv] using this
        · exact hAE b (by simp [hb])
      · intro hAE b hb
        rcases List.mem_cons.mp hb with rfl | hb
        · have := hAE hd (by simp)
          simpa [beatIsEmpty, hv] using this
        · exact hAE b (by simp [hb])
    | succ n =>
      simp only [List.getD_cons_succ] at hv
      constructor
      · intro hAE b hb
        rcases List.mem_cons.mp hb with rfl | hb
        · exact hAE b (by simp)
        · exact (ih n bf hv).mp (fun c hc => hAE c (by simp [hc])) b hb
      · intro hAE b hb
        rcases List.mem_cons.mp hb with rfl | hb
        · exact hAE b (by simp)
        · exact (ih n bf hv).mpr (fun c hc => hAE c (by simp [hc])) b hb

/-- `readChord` only writes the beat's `Chord` field. -/
theorem readChord_beat (strings : List GuitarString) (beat : Beat) (s : PSt) :
    (readChord strings beat s).1.Voices = beat.Voices ∧
    (readChord strings beat s).1.Start = beat.Start := by
  simp only [readChord]
  repeat' split
  all_goals simp

/-- `readText` only writes the beat's `Text` field. -/
theorem readText_beat (beat : Beat) (s : PSt) :
    (readText beat s).1.Voices = beat.Voices ∧
    (readText beat s).1.Start = beat.Start := by
  simp only [readText]
  repeat' split
  all_goals simp

/-- The beat-effects tail only writes the beat's `Stroke` field. -/
theorem readBeatEffectsTail_beat (beat : Beat) (ne : NoteEffect)
    (flags1 flags2 : Nat) (s : PSt) :
    (readBeatEffectsTail beat ne flags1 flags2 s).1.Voices = beat.Voices ∧
    (readBeatEffectsTail beat ne flags1 flags2 s).1.Start = beat.Start := by
  obtain ⟨ne1, s1, h1⟩ : ∃ a b,
      (if flags2 &&& 0x04 ≠ 0 then readTremoloBar ne s else (ne, s)) = (a, b) :=
    ⟨_, _, by rw [Prod.mk.eta]⟩
  simp only [readBeatEffectsTail, h1]
  split_ifs <;> simp

/-- `readBeatEffects` only writes the beat's `Stroke` field. -/
theorem readBeatEffects_beat (beat : Beat) (ne : NoteEffect) (s : PSt) :
    (readBeatEffects beat ne s).1.Voices = beat.Voices ∧
    (readBeatEffects beat ne s).1.Start = beat.Start := by
  simp only [readBeatEffects]
  split_ifs <;>
    first
      | (exact readBeatEffectsTail_beat _ _ _ _ _)
      | simp

/-- The note loop only appends notes to the initial list. -/
theorem readBeatNotes_extends :
    ∀ (l : List Nat) (sf : Nat) (track : Track) (eff : NoteEffect)
      (init : List Note) (s : PSt),
    ∃ extra, (readBeatNotes l sf track eff init s).1 = init ++ extra := by
  intro l
  induction l with
  | nil => intro sf track eff init s; exact ⟨[], by simp [readBeatNotes]⟩
  | cons i rest ih =>
    intro sf track eff init s
    unfold readBeatNotes
    split
    · obtain ⟨note, s1, hn⟩ : ∃ a b,
          readNote (track.GuitarStrings.getD (6 - i) {}) track eff s = (a, b) :=
        ⟨_, _, by rw [Prod.mk.eta]⟩
      rw [hn]
      obtain ⟨extra, hx⟩ := ih sf track eff (init ++ [note]) s1
      exact ⟨[note] ++ extra, by simpa using hx⟩
    · exact ih sf track eff init s

/-- `getBeat` either finds the start and returns the measure unchanged, or
appends one fresh two-voice beat at that start (only when the start is
absent). -/
theorem getBeat_cases (m : Measure) (start : Int) :
    ((getBeat m start).1 = m ∧ (getBeat m start).2 < m.Beats.length) ∨
    ((getBeat m start).1.Beats =
        m.Beats ++ [{ Start := start, Voices := [{}, {}] }] ∧
      (getBeat m start).2 = m.Beats.length ∧
      start ∉ m.Beats.map Beat.Start ∧
      (getBeat m start).1.Start = m.Start) := by
  unfold getBeat
  cases hf : m.Beats.findIdx? (fun b => b.Start = start) with
  | some i =>
    left
    refine ⟨rfl, ?_⟩
    exact (List.findIdx?_eq_some_iff_findIdx_eq.mp hf).1
  | none =>
    right
    refine ⟨rfl, rfl, ?_, rfl⟩
    intro hmem
    obtain ⟨b, hb, hbs⟩ := List.mem_map.mp hmem
    have := List.findIdx?_eq_none_iff.mp hf b hb
    simp [hbs] at this

theorem allNotesEmpty_set_backward :
    ∀ (V : List Voice) (vi : Nat) (v' : Voice),
    (∀ v ∈ V.set vi v', v.Notes.isEmpty = true) →
    (V.getD vi {}).Notes.isEmpty = true →
    ∀ v ∈ V, v.Notes.isEmpty = true := by
  intro V
  induction V with
  | nil => intro vi v' _ _ v hv; simp at hv
  | cons hd tl ih =>
    intro vi v' hAE hvi v hv
    cases vi with
    | zero =>
      rcases List.mem_cons.mp hv with rfl | hv
      · simpa using hvi
      · exact hAE v (by simp [hv])
    | succ n =>
      rcases List.mem_cons.mp hv with rfl | hv
      · exact hAE v (by simp)
      · exact ih n v' (fun c hc => hAE c (by simp [hc])) (by simpa using hvi) v hv

theorem allNotesEmpty_set_iff :
    ∀ (V : List Voice) (vi : Nat) (v' : Voice),
    v'.Notes = (V.getD vi {}).Notes →
    ((∀ v ∈ V.set vi v', v.Notes.isEmpty = true) ↔
      (∀ v ∈ V, v.Notes.isEmpty = true)) := by
  intro V
  induction V with
  | nil => intro vi v' _; simp
  | cons hd tl ih =>
    intro vi v' hn
    cases vi with
    | zero =>
      simp only [List.getD_cons_zero] at hn
      constructor
      · intro hAE v hv
        rcases List.mem_cons.mp hv with rfl | hv
        · have := hAE v' (by simp)
          simpa [hn] using this
        · exact hAE v (by simp [hv])
      · intro hAE v hv
        rcases List.mem_cons.mp hv with rfl | hv
        · have := hAE hd (by simp)
          simpa [hn] using this
        · exact hAE v (by simp [hv])
    | succ n =>
      simp only [List.getD_cons_succ] at hn
      constructor
      · intro hAE v hv
        rcases List.mem_cons.mp hv with rfl | hv
        · exact hAE v (by simp)
        · exact (ih n v' hn).mp (fun c hc => hAE c (by simp [hc])) v hv
      · intro hAE v hv
        rcases List.mem_cons.mp hv with rfl | hv
        · exact hAE v (by simp)
        · exact (ih n v' hn).mpr (fun c hc => hAE c (by simp [hc])) v hv

/-- Setting a slot to a beat with the same start and voices preserves the
start map, the voice-count invariant and emptiness. -/
theorem stage_set_preserves (m : Measure) (idx : Nat) (bnew : Beat)
    (hstart : bnew.Start = (m.Beats.getD idx {}).Start)
    (hvoices : bnew.Voices = (m.Beats.getD idx {}).Voices) :
    ({ m with Beats := m.Beats.set idx bnew } : Measure).Start = m.Start ∧
    (m.Beats.set idx bnew).map Beat.Start = m.Beats.map Beat.Start ∧
    (VL2 m.Beats → VL2 (m.Beats.set idx bnew)) ∧
    (AEb (m.Beats.set idx bnew) ↔ AEb m.Beats) := by
  refine ⟨rfl, map_start_set m.Beats idx bnew hstart, ?_, ?_⟩
  · intro hvl
    by_cases hlt : idx < m.Beats.length
    · refine VL2_set hvl ?_
      rw [hvoices]
      refine hvl _ ?_
      rw [List.getD_eq_getElem _ _ hlt]
      exact List.getElem_mem _
    · rw [List.set_eq_of_length_le (by omega)]
      exact hvl
  · exact AEb_set_voices_eq m.Beats idx bnew hvoices

theorem prodEta {α β : Type} (p : α × β) : p = (p.1, p.2) := rfl

theorem prod3Eta {α β γ : Type} (p : α × β × γ) : p = (p.1, p.2.1, p.2.2) := rfl

theorem mem_set_self {α : Type} :
    ∀ (L : List α) (i : Nat) (a : α), i < L.length → a ∈ L.set i a := by
  intro L
  induction L with
  | nil => intro i a h; simp at h
  | cons hd tl ih =>
    intro i a h
    cases i with
    | zero => simp
    | succ n =>
      simp only [List.set_cons_succ]
      exact List.mem_cons_of_mem _ (ih n a (by simpa using h))

/-- The voice write-back at the end of the string-flags branch: setting
voice `vi` of beat `idx` to a voice whose note list extends that slot's
notes keeps the beat starts and the two-voice invariant, and an all-empty
result forces an all-empty input with an empty final note list. -/
theorem voice_writeback_main (m3 : Measure) (idx vi : Nat) (v2 : Voice)
    (hvl3 : VL2 m3.Beats) (hidx3 : idx < m3.Beats.length) (hvi2 : vi < 2)
    (hpre : ∃ extra, v2.Notes =
      ((m3.Beats.getD idx {}).Voices.getD vi {}).Notes ++ extra) :
    (m3.Beats.set idx
        { m3.Beats.getD idx {} with
          Voices := (m3.Beats.getD idx {}).Voices.set vi v2 }).map Beat.Start =
      m3.Beats.map Beat.Start ∧
    VL2 (m3.Beats.set idx
        { m3.Beats.getD idx {} with
          Voices := (m3.Beats.getD idx {}).Voices.set vi v2 }) ∧
    (AEb (m3.Beats.set idx
        { m3.Beats.getD idx {} with
          Voices := (m3.Beats.getD idx {}).Voices.set vi v2 }) →
      AEb m3.Beats ∧ v2.Notes = []) := by
  have hBmem : m3.Beats.getD idx {} ∈ m3.Beats := by
    rw [List.getD_eq_getElem _ _ hidx3]
    exact List.getElem_mem _
  have hB2 : (m3.Beats.getD idx {}).Voices.length = 2 := hvl3 _ hBmem
  have hviB : vi < (m3.Beats.getD idx {}).Voices.length := by rw [hB2]; exact hvi2
  refine ⟨map_start_set _ _ _ rfl, ?_, ?_⟩
  · refine VL2_set hvl3 ?_
    show ((m3.Beats.getD idx {}).Voices.set vi v2).length = 2
    rw [List.length_set]
    exact hB2
  · intro hAE
    have hbfE : beatIsEmpty { m3.Beats.getD idx {} with
        Voices := (m3.Beats.getD idx {}).Voices.set vi v2 } = true :=
      hAE _ (mem_set_self m3.Beats idx _ hidx3)
    have hall : ∀ v ∈ (m3.Beats.getD idx {}).Voices.set vi v2,
        v.Notes.isEmpty = true := by
      simpa [beatIsEmpty, List.all_eq_true] using hbfE
    have hv2nil : v2.Notes = [] :=
      List.isEmpty_iff.mp (hall v2 (mem_set_self _ vi v2 hviB))
    obtain ⟨extra, hx⟩ := hpre
    have hV0 : ((m3.Beats.getD idx {}).Voices.getD vi {}).Notes = [] :=
      (List.append_eq_nil.mp (hx.symm.trans hv2nil)).1
    have hallB : ∀ v ∈ (m3.Beats.getD idx {}).Voices, v.Notes.isEmpty = true :=
      allNotesEmpty_set_backward _ vi v2 hall (by rw [hV0]; rfl)
    have hBE : beatIsEmpty (m3.Beats.getD idx {}) = true := by
      simpa [beatIsEmpty, List.all_eq_true] using hallB
    exact ⟨AEb_set_backward m3.Beats idx _ hAE hBE, hv2nil⟩

/-- Claim C2's core invariant for the decoding tail of one beat: the
measure keeps its start field and its list of beat starts, the two-voice
invariant is preserved, and if the resulting measure is all-empty then so
was the input and the returned duration contribution is zero. -/
theorem readBeatAfterType_main (flags : Nat) (m : Measure) (idx : Nat)
    (track : Track) (tempo : Tempo) (vi : Nat) (s : PSt)
    (hidx : idx < m.Beats.length) (hvi : vi < 2) (hvl : VL2 m.Beats) :
    (readBeatAfterType flags m idx track tempo vi s).2.1.Start = m.Start ∧
    (readBeatAfterType flags m idx track tempo vi s).2.1.Beats.map Beat.Start =
      m.Beats.map Beat.Start ∧
    VL2 (readBeatAfterType flags m idx track tempo vi s).2.1.Beats ∧
    (AEb (readBeatAfterType flags m idx track tempo vi s).2.1.Beats →
      AEb m.Beats ∧ (readBeatAfterType flags m idx track tempo vi s).1 = 0) := by
  obtain ⟨d, s0, hrd⟩ : ∃ a b, readDuration flags s = (a, b) := ⟨_, _, prodEta _⟩
  obtain ⟨m1, s1, hmc⟩ : ∃ a b,
      (if flags &&& 0x02 ≠ 0 then
        ({ m with Beats := (m.Beats.set idx
            (readChord track.GuitarStrings (m.Beats.getD idx {}) s0).1) },
          (readChord track.GuitarStrings (m.Beats.getD idx {}) s0).2)
      else (m, s0)) = (a, b) := ⟨_, _, prodEta _⟩
  have hm1 : m1.Start = m.Start ∧ m1.Beats.map Beat.Start = m.Beats.map Beat.Start ∧
      (VL2 m.Beats → VL2 m1.Beats) ∧ (AEb m1.Beats ↔ AEb m.Beats) := by
    by_cases hf : flags &&& 0x02 ≠ 0
    · rw [if_pos hf] at hmc
      have hm1eq : m1 = { m with Beats := (m.Beats.set idx
          (readChord track.GuitarStrings (m.Beats.getD idx {}) s0).1) } := by
        have := congrArg Prod.fst hmc
        simpa using this.symm
      rw [hm1eq]
      exact stage_set_preserves m idx _
        (readChord_beat _ _ _).2 (readChord_beat _ _ _).1
    · rw [if_neg hf] at hmc
      have hm1eq : m1 = m := by
        have := congrArg Prod.fst hmc
        simpa using this.symm
      simp [hm1eq]
  obtain ⟨m2, s2, hmt⟩ : ∃ a b,
      (if flags &&& 0x04 ≠ 0 then
        ({ m1 with Beats := (m1.Beats.set idx
            (readText (m1.Beats.getD idx {}) s1).1) },
          (readText (m1.Beats.getD idx {}) s1).2)
      else (m1, s1)) = (a, b) := ⟨_, _, prodEta _⟩
  have hm2 : m2.Start = m1.Start ∧ m2.Beats.map Beat.Start = m1.Beats.map Beat.Start ∧
      (VL2 m1.Beats → VL2 m2.Beats) ∧ (AEb m2.Beats ↔ AEb m1.Beats) := by
    by_cases hf : flags &&& 0x04 ≠ 0
    · rw [if_pos hf] at hmt
      have hm2eq : m2 = { m1 with Beats := (m1.Beats.set idx
          (readText (m1.Beats.getD idx {}) s1).1) } := by
        have := congrArg Prod.fst hmt
        simpa using this.symm
      rw [hm2eq]
      exact stage_set_preserves m1 idx _ (readText_beat _ _).2 (readText_beat _ _).1
    · rw [if_neg hf] at hmt
      have hm2eq : m2 = m1 := by
        have := congrArg Prod.fst hmt
        simpa using this.symm
      simp [hm2eq]
  obtain ⟨m3, eff3, s3, hme⟩ : ∃ a b c,
      (if flags &&& 0x08 ≠ 0 then
        ({ m2 with Beats := (m2.Beats.set idx
            (readBeatEffects (m2.Beats.getD idx {}) {} s2).1) },
          (readBeatEffects (m2.Beats.getD idx {}) {} s2).2.1,
          (readBeatEffects (m2.Beats.getD idx {}) {} s2).2.2)
      else (m2, {}, s2)) = (a, b, c) := ⟨_, _, _, prod3Eta _⟩
  have hm3 : m3.Start = m2.Start ∧ m3.Beats.map Beat.Start = m2.Beats.map Beat.Start ∧
      (VL2 m2.Beats → VL2 m3.Beats) ∧ (AEb m3.Beats ↔ AEb m2.Beats) := by
    by_cases hf : flags &&& 0x08 ≠ 0
    · rw [if_pos hf] at hme
      have hm3eq : m3 = { m2 with Beats := (m2.Beats.set idx
          (readBeatEffects (m2.Beats.getD idx {}) {} s2).1) } := by
        have := congrArg Prod.fst hme
        simpa using this.symm
      rw [hm3eq]
      exact stage_set_preserves m2 idx _
        (readBeatEffects_beat _ _ _).2 (readBeatEffects_beat _ _ _).1
    · rw [if_neg hf] at hme
      have hm3eq : m3 = m2 := by
        have := congrArg Prod.fst hme
        simpa using this.symm
      simp [hm3eq]
  have hstart3 : m3.Start = m.Start := hm3.1.trans (hm2.1.trans hm1.1)
  have hmap3 : m3.Beats.map Beat.Start = m.Beats.map Beat.Start :=
    hm3.2.1.trans (hm2.2.1.trans hm1.2.1)
  have hvl3 : VL2 m3.Beats := hm3.2.2.1 (hm2.2.2.1 (hm1.2.2.1 hvl))
  have hAE3 : AEb m3.Beats ↔ AEb m.Beats :=
    hm3.2.2.2.trans (hm2.2.2.2.trans hm1.2.2.2)
  have hidx3 : idx < m3.Beats.length := by
    have := congrArg List.length hmap3
    simp only [List.length_map] at this
    omega
  obtain ⟨tp4, s4, htm⟩ : ∃ a b,
      (if flags &&& 0x10 ≠ 0 then readMixChange tempo s3 else (tempo, s3)) = (a, b) :=
    ⟨_, _, prodEta _⟩
  obtain ⟨sfv, s5, ok5, hrsf⟩ : ∃ a b c, readUnsignedByte s4 = (a, b, c) :=
    ⟨_, _, _, prod3Eta _⟩
  simp only [readBeatAfterType]
  rw [hrd]; dsimp only
  rw [hmc]; dsimp only
  rw [hmt]; dsimp only
  rw [hme]; dsimp only
  rw [htm]; dsimp only
  rw [hrsf]; dsimp only
  by_cases hok : ok5 = false
  · rw [if_pos hok]
    exact ⟨hstart3, hmap3, hvl3, fun h => ⟨hAE3.mp h, rfl⟩⟩
  · rw [if_neg hok]
    obtain ⟨notes6, s6, hrn⟩ : ∃ a b,
        readBeatNotes [6, 5, 4, 3, 2, 1, 0] sfv track eff3
          ((m3.Beats.getD idx {}).Voices.getD vi {}).Notes s5 = (a, b) :=
      ⟨_, _, prodEta _⟩
    obtain ⟨extra, hext⟩ := readBeatNotes_extends [6, 5, 4, 3, 2, 1, 0] sfv track
      eff3 ((m3.Beats.getD idx {}).Voices.getD vi {}).Notes s5
    have hext2 : notes6 =
        ((m3.Beats.getD idx {}).Voices.getD vi {}).Notes ++ extra := by
      rw [← hext, hrn]
    rw [hrn]; dsimp only
    obtain ⟨bv, s7, ok7, hrb⟩ : ∃ a b c, readByte (skip 1 s6) = (a, b, c) :=
      ⟨_, _, _, prod3Eta _⟩
    rw [hrb]; dsimp only
    have hW := voice_writeback_main m3 idx vi
      { (m3.Beats.getD idx {}).Voices.getD vi {} with
        Notes := notes6
        Duration := { ((m3.Beats.getD idx {}).Voices.getD vi {}).Duration with Value := d } }
      hvl3 hidx3 hvi ⟨extra, hext2⟩
    by_cases h7 : ok7 = false
    · rw [if_pos h7]
      exact ⟨hstart3, hW.1.trans hmap3, hW.2.1,
        fun hAE => ⟨hAE3.mp (hW.2.2 hAE).1, rfl⟩⟩
    · rw [if_neg h7]
      refine ⟨?_, ?_, ?_, ?_⟩
      · split_ifs <;> exact hstart3
      · split_ifs <;> exact hW.1.trans hmap3
      · split_ifs <;> exact hW.2.1
      · by_cases hnz : notes6.length ≠ 0
        · rw [if_pos hnz]
          intro hAE
          have hnil : notes6 = [] := (hW.2.2 hAE).2
          exact absurd (show notes6.length = 0 by rw [hnil]; rfl) hnz
        · rw [if_neg hnz]
          exact fun hAE => ⟨hAE3.mp (hW.2.2 hAE).1, rfl⟩

theorem AEb_set_empty_eq :
    ∀ (L : List Beat) (idx : Nat) (bf : Beat),
    (beatIsEmpty bf = true ↔ beatIsEmpty (L.getD idx {}) = true) →
    (AEb (L.set idx bf) ↔ AEb L) := by
  intro L
  induction L with
  | nil => intro idx bf _; simp [AEb]
  | cons hd tl ih =>
    intro idx bf he
    cases idx with
    | zero =>
      simp only [List.getD_cons_zero] at he
      simp only [List.set_cons_zero]
      constructor
      · intro hAE b hb
        rcases List.mem_cons.mp hb with rfl | hb
        · exact he.mp (hAE bf (by simp))
        · exact hAE b (by simp [hb])
      · intro hAE b hb
        rcases List.mem_cons.mp hb with rfl | hb
        · exact he.mpr (hAE hd (by simp))
        · exact hAE b (by simp [hb])
    | succ n =>
      simp only [List.getD_cons_succ] at he
      simp only [List.set_cons_succ]
      constructor
      · intro hAE b hb
        rcases List.mem_cons.mp hb with rfl | hb
        · exact hAE b (by simp)
        · exact (ih n bf he).mp (fun c hc => hAE c (by simp [hc])) b hb
      · intro hAE b hb
        rcases List.mem_cons.mp hb with rfl | hb
        · exact hAE b (by simp)
        · exact (ih n bf he).mpr (fun c hc => hAE c (by simp [hc])) b hb

/-- Replacing voice `vi` of beat `idx` by a voice with the same note list
(the `Empty`-flag update of the 0x40 branch of `readBeat`) preserves beat
starts, the two-voice invariant and emptiness exactly. -/
theorem empty_set_preserves (m' : Measure) (idx vi : Nat) (v2 : Voice)
    (hn : v2.Notes = ((m'.Beats.getD idx {}).Voices.getD vi {}).Notes) :
    (m'.Beats.set idx
        { m'.Beats.getD idx {} with
          Voices := (m'.Beats.getD idx {}).Voices.set vi v2 }).map Beat.Start =
      m'.Beats.map Beat.Start ∧
    (VL2 m'.Beats → VL2 (m'.Beats.set idx
        { m'.Beats.getD idx {} with
          Voices := (m'.Beats.getD idx {}).Voices.set vi v2 })) ∧
    (AEb (m'.Beats.set idx
        { m'.Beats.getD idx {} with
          Voices := (m'.Beats.getD idx {}).Voices.set vi v2 }) ↔ AEb m'.Beats) := by
  refine ⟨map_start_set _ _ _ rfl, ?_, ?_⟩
  · intro hvl
    by_cases hlt : idx < m'.Beats.length
    · refine VL2_set hvl ?_
      show ((m'.Beats.getD idx {}).Voices.set vi v2).length = 2
      rw [List.length_set]
      refine hvl _ ?_
      rw [List.getD_eq_getElem _ _ hlt]
      exact List.getElem_mem _
    · rw [List.set_eq_of_length_le (by omega)]
      exact hvl
  · refine AEb_set_empty_eq _ idx _ ?_
    simp only [beatIsEmpty, List.all_eq_true]
    exact allNotesEmpty_set_iff _ vi _ hn

/-- Claim C2's invariant for one `readBeat` call: the measure start is
kept, the two-voice invariant is preserved, the list of beat starts is
either unchanged or extended by the (previously absent) requested start,
and an all-empty result forces an all-empty input measure and a zero
returned duration. -/
theorem readBeat_main (start : Int) (m : Measure) (track : Track)
    (tempo : Tempo) (vi : Nat) (s : PSt) (hvi : vi < 2) (hvl : VL2 m.Beats) :
    (readBeat start m track tempo vi s).2.1.Start = m.Start ∧
    VL2 (readBeat start m track tempo vi s).2.1.Beats ∧
    ((readBeat start m track tempo vi s).2.1.Beats.map Beat.Start =
        m.Beats.map Beat.Start ∨
      (start ∉ m.Beats.map Beat.Start ∧
        (readBeat start m track tempo vi s).2.1.Beats.map Beat.Start =
          m.Beats.map Beat.Start ++ [start])) ∧
    (AEb (readBeat start m track tempo vi s).2.1.Beats →
      AEb m.Beats ∧ (readBeat start m track tempo vi s).1 = 0) := by
  obtain ⟨sfv, s1, ok1, hrf⟩ : ∃ a b c, readUnsignedByte s = (a, b, c) :=
    ⟨_, _, _, prod3Eta _⟩
  simp only [readBeat]
  rw [hrf]; dsimp only
  by_cases hok1 : ok1 = false
  · rw [if_pos hok1]
    exact ⟨rfl, hvl, Or.inl rfl, fun h => ⟨h, rfl⟩⟩
  · rw [if_neg hok1]
    have hGvl : VL2 (getBeat m start).1.Beats := by
      rcases getBeat_cases m start with ⟨hgb1, _⟩ | ⟨hgbB, _, _, _⟩
      · rw [hgb1]; exact hvl
      · rw [hgbB]
        intro b hb
        rcases List.mem_append.mp hb with h | h
        · exact hvl b h
        · rw [List.mem_singleton] at h
          rw [h]
          rfl
    have hGidx : (getBeat m start).2 < (getBeat m start).1.Beats.length := by
      rcases getBeat_cases m start with ⟨hgb1, hgb2⟩ | ⟨hgbB, hgbI, _, _⟩
      · rw [hgb1]; exact hgb2
      · rw [hgbB, hgbI]
        simp
    have hGstart : (getBeat m start).1.Start = m.Start := by
      rcases getBeat_cases m start with ⟨hgb1, _⟩ | ⟨_, _, _, hgbSt⟩
      · rw [hgb1]
      · exact hgbSt
    have hGmap : (getBeat m start).1.Beats.map Beat.Start = m.Beats.map Beat.Start ∨
        (start ∉ m.Beats.map Beat.Start ∧
          (getBeat m start).1.Beats.map Beat.Start =
            m.Beats.map Beat.Start ++ [start]) := by
      rcases getBeat_cases m start with ⟨hgb1, _⟩ | ⟨hgbB, _, hgbS, _⟩
      · left; rw [hgb1]
      · right
        refine ⟨hgbS, ?_⟩
        rw [hgbB]
        simp
    have hGAE : AEb (getBeat m start).1.Beats → AEb m.Beats := by
      rcases getBeat_cases m start with ⟨hgb1, _⟩ | ⟨hgbB, _, _, _⟩
      · rw [hgb1]; exact id
      · intro hA b hb
        refine hA b ?_
        rw [hgbB]
        exact List.mem_append_left _ hb
    by_cases h40 : sfv &&& 0x40 ≠ 0
    · rw [if_pos h40]
      obtain ⟨bt, s2, ok2, hrb⟩ : ∃ a b c, readUnsignedByte s1 = (a, b, c) :=
        ⟨_, _, _, prod3Eta _⟩
      rw [hrb]; dsimp only
      by_cases hok2 : ok2 = false
      · rw [if_pos hok2]
        exact ⟨hGstart, hGvl, hGmap, fun h => ⟨hGAE h, rfl⟩⟩
      · rw [if_neg hok2]
        have hE := empty_set_preserves (getBeat m start).1 (getBeat m start).2 vi
          { ((getBeat m start).1.Beats.getD (getBeat m start).2 {}).Voices.getD vi {} with
            Empty := bt &&& 0x02 = 0 }
          rfl
        have hidx2 : (getBeat m start).2 <
            ((getBeat m start).1.Beats.set (getBeat m start).2
              { (getBeat m start).1.Beats.getD (getBeat m start).2 {} with
                Voices := ((getBeat m start).1.Beats.getD (getBeat m start).2 {}).Voices.set vi
                  { ((getBeat m start).1.Beats.getD (getBeat m start).2 {}).Voices.getD vi {} with
                    Empty := bt &&& 0x02 = 0 } }).length := by
          rw [List.length_set]
          exact hGidx
        have main := readBeatAfterType_main sfv
          { (getBeat m start).1 with
            Beats := ((getBeat m start).1.Beats.set (getBeat m start).2
              { (getBeat m start).1.Beats.getD (getBeat m start).2 {} with
                Voices := ((getBeat m start).1.Beats.getD (getBeat m start).2 {}).Voices.set vi
                  { ((getBeat m start).1.Beats.getD (getBeat m start).2 {}).Voices.getD vi {} with
                    Empty := bt &&& 0x02 = 0 } }) }
          (getBeat m start).2 track tempo vi s2 hidx2 hvi (hE.2.1 hGvl)
        refine ⟨main.1.trans hGstart, main.2.2.1, ?_, ?_⟩
        · rcases hGmap with hM | ⟨hnot, hM⟩
          · exact Or.inl ((main.2.1.trans hE.1).trans hM)
          · exact Or.inr ⟨hnot, (main.2.1.trans hE.1).trans hM⟩
        · intro hA
          rcases main.2.2.2 hA with ⟨hA2, hv⟩
          exact ⟨hGAE (hE.2.2.mp hA2), hv⟩
    · rw [if_neg h40]
      have main := readBeatAfterType_main sfv (getBeat m start).1 (getBeat m start).2
        track tempo vi s1 hGidx hvi hGvl
      refine ⟨main.1.trans hGstart, main.2.2.1, ?_, ?_⟩
      · rcases hGmap with hM | ⟨hnot, hM⟩
        · exact Or.inl (main.2.1.trans hM)
        · exact Or.inr ⟨hnot, main.2.1.trans hM⟩
      · intro hA
        rcases main.2.2.2 hA with ⟨hA2, hv⟩
        exact ⟨hGAE hA2, hv⟩

theorem prod4Eta {α β γ δ : Type} (p : α × β × γ × δ) :
    p = (p.1, p.2.1, p.2.2.1, p.2.2.2) := rfl

theorem readVoiceBeats_succ (k : Nat) (start : ℚ) (m : Measure) (track : Track)
    (tempo : Tempo) (vi : Nat) (s : PSt) :
    readVoiceBeats (k + 1) start m track tempo vi s =
    readVoiceBeats k (start + (readBeat (ratTrunc start) m track tempo vi s).1)
      (readBeat (ratTrunc start) m track tempo vi s).2.1 track
      (readBeat (ratTrunc start) m track tempo vi s).2.2.1 vi
      (readBeat (ratTrunc start) m track tempo vi s).2.2.2 := by
  obtain ⟨d, m2, tp2, s2, h⟩ : ∃ a b c e,
      readBeat (ratTrunc start) m track tempo vi s = (a, b, c, e) :=
    ⟨_, _, _, _, prod4Eta _⟩
  rw [readVoiceBeats, h]

/-- Claim C2's invariant for one voice's beat loop: the measure start is
kept, the two-voice invariant is preserved, and an all-empty result forces
an all-empty input and a beat-start list that either did not change or
gained exactly the (previously absent) truncated loop start. -/
theorem readVoiceBeats_main :
    ∀ (k : Nat) (stq : ℚ) (m : Measure) (track : Track) (tempo : Tempo)
      (vi : Nat) (s : PSt), vi < 2 → VL2 m.Beats →
    (readVoiceBeats k stq m track tempo vi s).1.Start = m.Start ∧
    VL2 (readVoiceBeats k stq m track tempo vi s).1.Beats ∧
    (AEb (readVoiceBeats k stq m track tempo vi s).1.Beats →
      AEb m.Beats ∧
      ((readVoiceBeats k stq m track tempo vi s).1.Beats.map Beat.Start =
          m.Beats.map Beat.Start ∨
        (ratTrunc stq ∉ m.Beats.map Beat.Start ∧
          (readVoiceBeats k stq m track tempo vi s).1.Beats.map Beat.Start =
            m.Beats.map Beat.Start ++ [ratTrunc stq]))) := by
  intro k
  induction k with
  | zero =>
    intro stq m track tempo vi s hvi hvl
    exact ⟨rfl, hvl, fun h => ⟨h, Or.inl rfl⟩⟩
  | succ n ih =>
    intro stq m track tempo vi s hvi hvl
    rw [readVoiceBeats_succ]
    have hrb := readBeat_main (ratTrunc stq) m track tempo vi s hvi hvl
    have hih := ih (stq + (readBeat (ratTrunc stq) m track tempo vi s).1)
      (readBeat (ratTrunc stq) m track tempo vi s).2.1 track
      (readBeat (ratTrunc stq) m track tempo vi s).2.2.1 vi
      (readBeat (ratTrunc stq) m track tempo vi s).2.2.2 hvi hrb.2.1
    refine ⟨hih.1.trans hrb.1, hih.2.1, ?_⟩
    intro hAE
    rcases hih.2.2 hAE with ⟨hAEmid, hmapTail⟩
    rcases hrb.2.2.2 hAEmid with ⟨hAE0, hd0⟩
    refine ⟨hAE0, ?_⟩
    have hst : stq + (readBeat (ratTrunc stq) m track tempo vi s).1 = stq := by
      rw [hd0, add_zero]
    rw [hst] at hmapTail ⊢
    rcases hmapTail with hM | ⟨hnotin, hM⟩
    · rcases hrb.2.2.1 with hM0 | ⟨hni, hM0⟩
      · exact Or.inl (hM.trans hM0)
      · exact Or.inr ⟨hni, hM.trans hM0⟩
    · rcases hrb.2.2.1 with hM0 | ⟨hni, hM0⟩
      · rw [hM0] at hnotin hM
        exact Or.inr ⟨hnotin, hM⟩
      · exfalso
        apply hnotin
        rw [hM0]
        simp

/-- Claim C2's invariant for one voice pass of `readMeasure`. -/
theorem readMeasureVoice_main (vi : Nat) (m : Measure) (track : Track)
    (tempo : Tempo) (s : PSt) (hvi : vi < 2) (hvl : VL2 m.Beats) :
    (readMeasureVoice vi m track tempo s).1.Start = m.Start ∧
    VL2 (readMeasureVoice vi m track tempo s).1.Beats ∧
    (AEb (readMeasureVoice vi m track tempo s).1.Beats →
      AEb m.Beats ∧
      ((readMeasureVoice vi m track tempo s).1.Beats.map Beat.Start =
          m.Beats.map Beat.Start ∨
        (ratTrunc ((m.Start : ℚ)) ∉ m.Beats.map Beat.Start ∧
          (readMeasureVoice vi m track tempo s).1.Beats.map Beat.Start =
            m.Beats.map Beat.Start ++ [ratTrunc ((m.Start : ℚ))]))) := by
  obtain ⟨bc, s1, ok1, hri⟩ : ∃ a b c, readInt s = (a, b, c) := ⟨_, _, _, prod3Eta _⟩
  simp only [readMeasureVoice]
  rw [hri]; dsimp only
  cases ok1 with
  | false =>
    rw [if_pos (by simp)]
    exact ⟨rfl, hvl, fun h => ⟨h, Or.inl rfl⟩⟩
  | true =>
    rw [if_neg (by simp)]
    obtain ⟨mv, tpv, sv, hrv⟩ : ∃ a b c,
        readVoiceBeats bc.toNat ((m.Start : ℚ)) m track tempo vi s1 = (a, b, c) :=
      ⟨_, _, _, prod3Eta _⟩
    have hmain := readVoiceBeats_main bc.toNat ((m.Start : ℚ)) m track tempo vi s1
      hvi hvl
    rw [hrv] at hmain
    rw [hrv]; dsimp only
    exact ⟨hmain.1, hmain.2.1, hmain.2.2⟩

/-- Claim C2's invariant for the two-voice phase of `readMeasure`. -/
theorem readMeasurePhase1_main (m : Measure) (track : Track) (tempo : Tempo)
    (s : PSt) (hvl : VL2 m.Beats) :
    (readMeasurePhase1 m track tempo s).1.Start = m.Start ∧
    VL2 (readMeasurePhase1 m track tempo s).1.Beats ∧
    (AEb (readMeasurePhase1 m track tempo s).1.Beats →
      AEb m.Beats ∧
      ((readMeasurePhase1 m track tempo s).1.Beats.map Beat.Start =
          m.Beats.map Beat.Start ∨
        (ratTrunc ((m.Start : ℚ)) ∉ m.Beats.map Beat.Start ∧
          (readMeasurePhase1 m track tempo s).1.Beats.map Beat.Start =
            m.Beats.map Beat.Start ++ [ratTrunc ((m.Start : ℚ))]))) := by
  obtain ⟨m1, tp1, s1, ok1, hv0⟩ : ∃ a b c e,
      readMeasureVoice 0 m track tempo s = (a, b, c, e) := ⟨_, _, _, _, prod4Eta _⟩
  have h0 := readMeasureVoice_main 0 m track tempo s (by omega) hvl
  rw [hv0] at h0
  have h0S : m1.Start = m.Start := h0.1
  have h0V : VL2 m1.Beats := h0.2.1
  simp only [readMeasurePhase1]
  rw [hv0]; dsimp only
  cases ok1 with
  | false =>
    rw [if_pos (by simp)]
    exact ⟨h0.1, h0.2.1, h0.2.2⟩
  | true =>
    rw [if_neg (by simp)]
    have h1 := readMeasureVoice_main 1 m1 track tp1 s1 (by omega) h0V
    refine ⟨h1.1.trans h0S, h1.2.1, ?_⟩
    intro hAE
    rcases h1.2.2 hAE with ⟨hAEmid, hd1⟩
    have h0A : AEb m1.Beats → AEb m.Beats ∧
        (m1.Beats.map Beat.Start = m.Beats.map Beat.Start ∨
          (ratTrunc ((m.Start : ℚ)) ∉ m.Beats.map Beat.Start ∧
            m1.Beats.map Beat.Start =
              m.Beats.map Beat.Start ++ [ratTrunc ((m.Start : ℚ))])) := h0.2.2
    rcases h0A hAEmid with ⟨hAE0, hd0⟩
    refine ⟨hAE0, ?_⟩
    rw [h0S] at hd1
    rcases hd1 with hM | ⟨hnotin, hM⟩
    · rcases hd0 with hM0 | ⟨hni, hM0⟩
      · exact Or.inl (hM.trans hM0)
      · exact Or.inr ⟨hni, hM.trans hM0⟩
    · rcases hd0 with hM0 | ⟨hni, hM0⟩
      · rw [hM0] at hnotin hM
        exact Or.inr ⟨hnotin, hM⟩
      · exfalso
        apply hnotin
        rw [hM0]
        simp

/-- Pruning a list of at most one beat that is all-empty leaves no
beats. -/
theorem prune_single :
    ∀ (l : List Beat), AEb l → l.length ≤ 1 →
    removeEmptyBeats (emptyBeatIdxs l) l = [] := by
  intro l hA hl
  rcases l with _ | ⟨b, _ | ⟨c, t⟩⟩
  · rfl
  · have hb : beatIsEmpty b = true := hA b (by simp)
    have h1 : emptyBeatIdxs [b] = [0] := by
      simp [emptyBeatIdxs, List.range_succ, List.range_zero, hb]
    rw [h1]
    simp [removeEmptyBeats]
  · simp at hl

/-- Claim C2 (amended): for a measure that starts with no beats and whose
beat-count reads both succeed, if every decoded beat ends with zero notes
in every voice then the finalized measure's beat list is empty. -/
theorem empty_measure_beats_elided (m : Measure) (track : Track)
    (tempo : Tempo) (ks : Int) (s : PSt)
    (h0 : m.Beats = [])
    (hok : (readMeasurePhase1 m track tempo s).2.2.2 = true)
    (hAE : AEb (readMeasurePhase1 m track tempo s).1.Beats) :
    (readMeasure m track tempo ks s).1.Beats = [] := by
  obtain ⟨m1, tp1, s1, ok1, hph⟩ : ∃ a b c e,
      readMeasurePhase1 m track tempo s = (a, b, c, e) := ⟨_, _, _, _, prod4Eta _⟩
  have hok1 : ok1 = true := by rw [hph] at hok; exact hok
  have hAE1 : AEb m1.Beats := by rw [hph] at hAE; exact hAE
  have hp := readMeasurePhase1_main m track tempo s
    (by rw [h0]; intro b hb; simp at hb)
  rw [hph] at hp
  have hdis : m1.Beats.map Beat.Start = m.Beats.map Beat.Start ∨
      (ratTrunc ((m.Start : ℚ)) ∉ m.Beats.map Beat.Start ∧
        m1.Beats.map Beat.Start =
          m.Beats.map Beat.Start ++ [ratTrunc ((m.Start : ℚ))]) :=
    (hp.2.2 hAE1).2
  simp only [readMeasure]
  rw [hph]; dsimp only
  rw [hok1]
  rw [if_neg (by simp)]
  show removeEmptyBeats (emptyBeatIdxs m1.Beats) m1.Beats = []
  refine prune_single m1.Beats hAE1 ?_
  rcases hdis with hM | ⟨_, hM⟩
  · rw [h0, List.map_nil] at hM
    have hnil : m1.Beats = [] := by simpa using hM
    simp [hnil]
  · rw [h0, List.map_nil, List.nil_append] at hM
    have hln := congrArg List.length hM
    rw [List.length_map] at hln
    simp at hln
    omega

/-- Witness for C2's amended theorem: a fresh measure over a buffer whose
two voice beat-counts are zero completes both passes and finalizes with an
empty beat list. -/
theorem empty_measure_beats_elided_witness :
    (readMeasure {} {} {} 0
      { buf := [0, 0, 0, 0, 0, 0, 0, 0], pos := 0 }).1.Beats = [] := by
  refine empty_measure_beats_elided {} {} {} 0
    { buf := [0, 0, 0, 0, 0, 0, 0, 0], pos := 0 } rfl (by decide) ?_
  have h : (readMeasurePhase1 {} {} {}
      { buf := [0, 0, 0, 0, 0, 0, 0, 0], pos := 0 }).1.Beats = [] := by decide
  rw [h]
  intro b hb
  simp at hb

/-- Witness for C1's amended theorem on the tied history and the concrete
input `[0x20, 0x02, 0x09, 0]`. -/
theorem tied_note_resolution_witness :
    (readNote { Number := 3, Value := 64 } c1TiedTrack {}
      { buf := [0x20, 0x02, 0x09, 0] }).1.TiedNote = true ∧
    (readNote { Number := 3, Value := 64 } c1TiedTrack {}
      { buf := [0x20, 0x02, 0x09, 0] }).1.Value =
      (if 0 ≤ getTiedNoteValue (GuitarString.mk 3 64).Number c1TiedTrack ∧
          getTiedNoteValue (GuitarString.mk 3 64).Number c1TiedTrack < 100 then
        getTiedNoteValue (GuitarString.mk 3 64).Number c1TiedTrack
      else 0) ∧
    (readNote { Number := 3, Value := 64 } c1TiedTrack {}
      { buf := [0x20, 0x02, 0x09, 0] }).2 =
      { PSt.mk [0x20, 0x02, 0x09, 0] 0 [] 0 with pos := 0 + 4 } ∧
    getTiedNoteValue 3 c1TiedTrack = 5 :=
  tied_note_resolution { buf := [0x20, 0x02, 0x09, 0] } c1TiedTrack
    { Number := 3, Value := 64 } {} (by decide) (by decide) (by decide)

attribute [local semireducible] Rat.mul Rat.inv Rat.add Rat.sub Rat.ofScientific

set_option maxHeartbeats 4000000 in
/-- Counterexample to claim C2 as stated: decoding `c2Buf` into a fresh
measure yields two beats, and the second — whose voices both ended with
zero notes — survives the pruning pass, because the removal loop erases by
original backing-array position from an already-shifted list. -/
theorem empty_beat_elision_counterexample :
    (readMeasure { Start := 0 } c2Track {} 0
      { buf := c2Buf, pos := 0 }).1.Beats.length = 2 ∧
    beatIsEmpty ((readMeasure { Start := 0 } c2Track {} 0
      { buf := c2Buf, pos := 0 }).1.Beats.getD 1 {}) = true ∧
    ((readMeasure { Start := 0 } c2Track {} 0
      { buf := c2Buf, pos := 0 }).1.Beats.getD 1 {}).Voices.map
        (fun v => v.Notes.length) = [0, 0] := by decide

end Parsegp
